import Mathlib

/-! Shallow embedding of the WeReply Windows platform agent
(`src/platform_agents/windows/wxauto_agent.py`) and of the vendored
layout-discovery module
(`src/platform_agents/windows/vendor/wxauto/wxauto/ui/layout.py`).

Modelling conventions:
* Python dicts become insertion-ordered association lists (`ainsert`
  replaces in place, appends fresh keys, matching CPython dict semantics).
* `time.time()` and `uuid.uuid4()` become an ambient clock `now : Int`
  and a fresh-name counter `freshId : Nat` threaded through the `Agent`
  record; envelope ids are `"uuid-" ++ toString n`.
* JSON payload values become the `JVal` inductive.
* Observable side effects (writing one line to stdout, calling
  `AddListenChat` / `RemoveListenChat` on the provider) become an `Eff`
  trace returned alongside the updated agent.  Clipboard and keystroke
  primitives are external collaborators and are not traced.
* The external world (whether a `WeChat` handle can be obtained, what
  `AddListenChat` returns per target, what `GetSession` returns, whether
  clipboard operations succeed) is an oracle record `World`.
* `str.strip()` / `str.lower()` are modelled by `pyStrip` / `pyLower`
  (ASCII behaviour, which coincides with Python on all strings relevant
  here). -/

/-- JSON-like values used in envelope payloads. -/
inductive JVal where
  | str (s : String)
  | int (n : Int)
  | bool (b : Bool)
  | null
  | arr (xs : List JVal)
  | obj (fields : List (String × JVal))

/-- Wire envelope, `envelope()` in wxauto_agent.py: version, type tag,
unique id, integer timestamp, structured payload. -/
structure Envelope where
  version : String
  etype : String
  id : String
  timestamp : Int
  payload : List (String × JVal)

/-- PendingMessage dataclass: an envelope awaiting acknowledgement. -/
structure PendingMessage where
  envelope : Envelope
  sent_at : Int
  retries : Nat

/-- Association-list lookup (Python `dict.get`). -/
def alookup {β : Type} (m : List (String × β)) (k : String) : Option β :=
  match m with
  | [] => none
  | (k', v) :: rest => if k' = k then some v else alookup rest k

/-- Association-list insert-or-replace (Python `dict[k] = v`): replaces the
value in place when the key exists, appends otherwise. -/
def ainsert {β : Type} (m : List (String × β)) (k : String) (v : β) :
    List (String × β) :=
  match m with
  | [] => [(k, v)]
  | (k', v') :: rest =>
      if k' = k then (k', v) :: rest else (k', v') :: ainsert rest k v

/-- Association-list erase (Python `dict.pop(k, None)` state effect). -/
def aerase {β : Type} (m : List (String × β)) (k : String) :
    List (String × β) :=
  m.filter (fun p => p.1 ≠ k)

/-- Key list of an association list (Python `dict.keys()`). -/
def akeys {β : Type} (m : List (String × β)) : List String :=
  m.map (fun p => p.1)

/-- Python `str.strip()`: drop whitespace from both ends (computed over
the character list so that concrete instances evaluate in the kernel). -/
def pyStrip (s : String) : String :=
  String.mk
    (((s.data.dropWhile Char.isWhitespace).reverse.dropWhile
        Char.isWhitespace).reverse)

/-- Python `str.lower()` (ASCII case mapping, computed over the
character list). -/
def pyLower (s : String) : String :=
  String.mk (s.data.map Char.toLower)

/-- AgentState dataclass of wxauto_agent.py.  `wx : Bool` models whether
`STATE.wx` holds a provider instance (`True` = `is not None`). -/
structure AgentState where
  listening : Bool := false
  poll_interval : ℚ := (0.8 : ℚ)
  last_message_keys : List (String × String) := []
  pending : List (String × PendingMessage) := []
  wx : Bool := false
  wechat_ready : Bool := false
  listen_targets : List (String × String) := []
  active_targets : List (String × String) := []
  active_kinds : List (String × String) := []

/-- Raw incoming chat message, modelling the attribute-bearing message
object delivered by the provider's callback (the duck-typed probing in
`extract_message_text` / `extract_sender_name` / `extract_msg_id` /
`handle_incoming_message`).  Each field is the corresponding attribute
when present as a string (id-like values already through `str(...)`),
`none` when absent. -/
structure RawMessage where
  text : Option String := none
  content : Option String := none
  msg : Option String := none
  message : Option String := none
  sender_remark : Option String := none
  sender : Option String := none
  name : Option String := none
  from_user : Option String := none
  msg_id : Option String := none
  id : Option String := none
  hash : Option String := none
  deriving DecidableEq

/-- ChatInfo dictionary of a provider chat session (fields `none` when
absent; `""` is a present-but-falsy value). -/
structure ChatInfoD where
  chat_name : Option String := none
  chat_remark : Option String := none
  chat_type : Option String := none
  deriving DecidableEq

/-- Provider chat-session object: its `who` attribute and the result of
calling `ChatInfo()` (`none` models an exception or a non-dict result). -/
structure Chat where
  who : Option String := none
  chatInfo : Option ChatInfoD := none
  deriving DecidableEq

/-- Buffered item of the MESSAGE_QUEUE hand-off. -/
structure Incoming where
  message : RawMessage
  chat : Chat
  chat_name : String

/-- Ambient process context: the module-level `STATE`, the
MESSAGE_QUEUE hand-off buffer, the wall clock for `time.time()`, and the
uuid source. -/
structure Agent where
  state : AgentState
  msgQueue : List Incoming
  now : Int
  freshId : Nat

/-- Observable side effects of one call, in program order: a line written
to stdout, provider listen-chat calls, chat activation, clipboard writes
and the paste keystroke. -/
inductive Eff where
  | out (env : Envelope)
  | addListen (name : String)
  | removeListen (name : String)
  | chatWith (chat : String)
  | clipCopy (s : String)
  | hotkeyPaste

/-- Result of a provider `AddListenChat` call. -/
inductive AddResult where
  | raises (msg : String)
  | returns (hasChatInfo : Bool) (who : Option String)
  deriving DecidableEq

/-- External-world oracle: provider availability, per-target add results,
session enumeration, clipboard behaviour. -/
structure World where
  ensure_ok : Bool
  ensure_err : String
  add : String → AddResult
  sessions : Option (List (Option String))
  sessions_err : String
  clip_import_ok : Bool
  import_err : String
  clip_paste : Option String
  clip_copy_ok : Bool
  copy_err : String

/-- Builds an envelope (`envelope()`), drawing a fresh uuid and stamping
the current time. -/
def mkEnvelope (a : Agent) (ty : String) (payload : List (String × JVal)) :
    Envelope × Agent :=
  ({ version := "1.0", etype := ty, id := "uuid-" ++ toString a.freshId,
     timestamp := a.now, payload := payload },
   { a with freshId := a.freshId + 1 })

/-- Sends an envelope and registers it as pending (`send_with_ack`). -/
def send_with_ack (a : Agent) (ty : String) (payload : List (String × JVal)) :
    Agent × List Eff :=
  let (env, a1) := mkEnvelope a ty payload
  ({ a1 with state := { a1.state with
      pending := ainsert a1.state.pending env.id
        { envelope := env, sent_at := a.now, retries := 0 } } },
   [Eff.out env])

/-- Emits a one-shot acknowledgement envelope that is not tracked
(`send_ack`). -/
def send_ack (a : Agent) (ack_id : String) (ok : Bool) (error : String) :
    Agent × List Eff :=
  let (env, a1) := mkEnvelope a "event.ack"
    [("ack_id", JVal.str ack_id), ("ok", JVal.bool ok),
     ("error", JVal.str error)]
  (a1, [Eff.out env])

/-- Reports an `agent.error` event (`emit_error`). -/
def emit_error (a : Agent) (code msg : String) (recoverable : Bool) :
    Agent × List Eff :=
  send_with_ack a "agent.error"
    [("code", JVal.str code), ("message", JVal.str msg),
     ("recoverable", JVal.bool recoverable)]

/-- Reports an `agent.status` event (`emit_status`). -/
def emit_status (a : Agent) (st detail : String) : Agent × List Eff :=
  send_with_ack a "agent.status"
    [("state", JVal.str st), ("detail", JVal.str detail)]

/-! ### Retry sweep (`process_pending`) -/

/-- ACK_TIMEOUT_SECONDS constant. -/
def ACK_TIMEOUT_SECONDS : Int := 3

/-- MAX_ACK_RETRIES constant. -/
def MAX_ACK_RETRIES : Nat := 3

/-- One per-entry step of the retry sweep, iterating the snapshot
`list(STATE.pending.items())` in order. -/
def processPendingGo (now : Int) :
    List (String × PendingMessage) →
    List (String × PendingMessage) × List Eff
  | [] => ([], [])
  | (i, p) :: rest =>
      let (rest', effs) := processPendingGo now rest
      if now - p.sent_at < ACK_TIMEOUT_SECONDS then
        ((i, p) :: rest', effs)
      else if p.retries ≥ MAX_ACK_RETRIES then
        (rest', effs)
      else
        ((i, { p with sent_at := now, retries := p.retries + 1 }) :: rest',
         Eff.out p.envelope :: effs)

/-- Retry sweep (`process_pending`): re-emit timed-out entries below the
retry ceiling, drop timed-out entries at the ceiling. -/
def process_pending (a : Agent) : Agent × List Eff :=
  let r := processPendingGo a.now a.state.pending
  ({ a with state := { a.state with pending := r.1 } }, r.2)

/-! ### Listen-target normalization (`normalize_listen_targets`) -/

/-- Raw target record handed in over the wire: either not a dict (skipped)
or a dict with optional `name` / `kind` values (already passed through
Python `str(...)`). -/
inductive RawTarget where
  | notDict
  | dict (name : Option String) (kind : Option String)
  deriving DecidableEq, Repr

/-- Raw `targets` payload value: either not a list (normalizes to `[]`)
or a list of records. -/
inductive RawTargets where
  | notList
  | items (l : List RawTarget)
  deriving DecidableEq, Repr

/-- Normalized listen target. -/
structure ListenTarget where
  name : String
  kind : String
  deriving DecidableEq, Repr

/-- LISTEN_TARGET_KINDS constant. -/
def LISTEN_TARGET_KINDS : List String := ["direct", "group", "unknown"]

/-- Loop body of `normalize_listen_targets` with the `seen` accumulator. -/
def normalizeGo : List RawTarget → List String → List ListenTarget
  | [], _ => []
  | RawTarget.notDict :: rest, seen => normalizeGo rest seen
  | RawTarget.dict nm kd :: rest, seen =>
      let name := pyStrip (nm.getD "")
      if name = "" ∨ name ∈ seen then normalizeGo rest seen
      else
        let kind := pyLower (pyStrip (kd.getD "unknown"))
        let kind := if kind ∈ LISTEN_TARGET_KINDS then kind else "unknown"
        { name := name, kind := kind } :: normalizeGo rest (name :: seen)

/-- Listen-target normalization (`normalize_listen_targets`). -/
def normalize_listen_targets : RawTargets → List ListenTarget
  | RawTargets.notList => []
  | RawTargets.items l => normalizeGo l []

/-! ### Main-window selection (`select_wechat_main_hwnd`) -/

/-- Boolean check that `needle` starts `l` (used for substring search). -/
def leadsWith : List Char → List Char → Bool
  | [], _ => true
  | _ :: _, [] => false
  | a :: as, b :: bs => a == b && leadsWith as bs

/-- Helper for Python's `needle in hay` over char lists. -/
def strContainsAux (needle : List Char) : List Char → Bool
  | [] => leadsWith needle []
  | c :: rest => leadsWith needle (c :: rest) || strContainsAux needle rest

/-- Python's substring test `needle in hay`. -/
def strContains (hay needle : String) : Bool :=
  strContainsAux needle.data hay.data

/-- Windows `os.path.basename`: strip a drive like `C:`, then keep the
text after the last path separator (`/` or `\`). -/
def pyBasenameWin (p : String) : String :=
  let cs := p.data
  let cs := if cs.length ≥ 2 ∧ cs[1]? = some ':' then cs.drop 2 else cs
  String.mk (cs.foldl
    (fun acc c => if c = '/' ∨ c = '\\' then [] else acc ++ [c]) [])

/-- Candidate filter of `select_wechat_main_hwnd`: title or class name
contains one of the app markers. -/
def markerMatch (w : Int × String × String) : Bool :=
  strContains w.2.2 "微信" || strContains w.2.2 "WeChat" ||
  strContains w.2.2 "Weixin" || strContains w.2.1 "WeChat" ||
  strContains w.2.1 "Weixin"

/-- Integer-keyed lookup for `path_by_hwnd`. -/
def hlookup (m : List (Int × String)) (k : Int) : Option String :=
  match m with
  | [] => none
  | (k', v) :: rest => if k' = k then some v else hlookup rest k

/-- Pass 1 test: executable basename equals `wechat.exe` case-insensitively. -/
def exeMatch (pathByHwnd : List (Int × String)) (w : Int × String × String) :
    Bool :=
  pyLower (pyBasenameWin ((hlookup pathByHwnd w.1).getD "")) == "wechat.exe"

/-- Pass 2 test: title is one of the canonical titles. -/
def canonTitleMatch (w : Int × String × String) : Bool :=
  w.2.2 == "微信" || w.2.2 == "WeChat"

/-- Pass 3 test: any non-empty title. -/
def nonEmptyTitle (w : Int × String × String) : Bool :=
  w.2.2 ≠ ""

/-- First-match-wins scan returning the window handle, modelling the
`for ...: if ...: return hwnd` loops. -/
def firstHwnd (p : Int × String × String → Bool) :
    List (Int × String × String) → Option Int
  | [] => none
  | w :: rest => if p w then some w.1 else firstHwnd p rest

/-- Main-window selection (`select_wechat_main_hwnd`). -/
def select_wechat_main_hwnd (windows : List (Int × String × String))
    (pathByHwnd : List (Int × String)) : Option Int :=
  let candidates := windows.filter markerMatch
  match candidates with
  | [] => none
  | c0 :: _ =>
      match firstHwnd (exeMatch pathByHwnd) candidates with
      | some h => some h
      | none =>
          match firstHwnd canonTitleMatch candidates with
          | some h => some h
          | none =>
              match firstHwnd nonEmptyTitle candidates with
              | some h => some h
              | none => some c0.1

/-! ### Control-tree scanner and layout discovery (`wxauto/ui/layout.py`)

Controls are modelled as finite trees carrying a control-type tag and a
display name (`ControlTypeName` / `Name`).  A control *in context* is
identified by its child-index path from the root, which also gives the
parent relation (`GetParentControl` = drop the last index; the root's
parent is absent). -/

/-- Abstract control node of the accessibility tree. -/
inductive Ctrl where
  | mk (ty : String) (name : String) (children : List Ctrl)

/-- ControlTypeName accessor (`_control_type`; absent values read ""). -/
def Ctrl.ty : Ctrl → String
  | .mk t _ _ => t

/-- Raw Name accessor. -/
def Ctrl.nm : Ctrl → String
  | .mk _ n _ => n

/-- Children accessor (`GetChildren`). -/
def Ctrl.children : Ctrl → List Ctrl
  | .mk _ _ cs => cs

/-- Trimmed display name (`_control_name` strips the raw Name). -/
def ctrlName (c : Ctrl) : String := pyStrip c.nm

/-- LayoutLabels configuration record (name sets as lists). -/
structure LayoutLabels where
  session_list_names : List String
  session_search_names : List String
  message_list_names : List String
  send_button_names : List String
  navigation_button_names : List String

/-- DEFAULT_MAX_DEPTH constant. -/
def DEFAULT_MAX_DEPTH : Nat := 14

/-- SUBTREE_SCAN_DEPTH constant. -/
def SUBTREE_SCAN_DEPTH : Nat := 6

/-- Bounded pre-order traversal (`_iter_controls`): the first argument is
the remaining depth budget (`max_depth - depth` of the source's explicit
depth counter); a node with budget 0 — i.e. at exactly `max_depth` — is
yielded but not expanded. -/
def walkCtrls : Nat → Ctrl → List Ctrl
  | 0, c => [c]
  | fuel + 1, c => c :: (c.children.map (walkCtrls fuel)).flatten

/-- Bounded pre-order traversal that also records each node's child-index
path from the traversal root. -/
def walkPathsCtrls : Nat → List Nat → Ctrl → List (List Nat × Ctrl)
  | 0, path, c => [(path, c)]
  | fuel + 1, path, c =>
      (path, c) ::
        (c.children.enum.map
          (fun ic => walkPathsCtrls fuel (path ++ [ic.1]) ic.2)).flatten

/-- Subtree of `root` addressed by a child-index path. -/
def subtreeAt (c : Ctrl) : List Nat → Option Ctrl
  | [] => some c
  | i :: rest =>
      match c.children.get? i with
      | some child => subtreeAt child rest
      | none => none

/-- Parent path (`_safe_parent`): the root has no parent. -/
def parentPath : List Nat → Option (List Nat)
  | [] => none
  | p => some p.dropLast

/-- Bounded subtree search (`_subtree_has`). -/
def subtreeHas (c : Ctrl) (pred : Ctrl → Bool) (maxDepth : Nat) : Bool :=
  (walkCtrls maxDepth c).any pred

/-- Type-only descendant test (`_has_descendant_by_type`). -/
def hasDescByType (c : Ctrl) (ty : String) : Bool :=
  subtreeHas c (fun x => x.ty == ty) SUBTREE_SCAN_DEPTH

/-- Type-and-name descendant test (`_has_descendant_by_type_and_name`);
an all-empty name set matches nothing. -/
def hasDescByTypeAndName (c : Ctrl) (ty : String) (names : List String) :
    Bool :=
  let names := names.filter (fun n => n ≠ "")
  if names.isEmpty then false
  else subtreeHas c
    (fun x => x.ty == ty && names.contains (ctrlName x)) SUBTREE_SCAN_DEPTH

/-- Bounded count of named controls (`_count_controls_by_name`). -/
def countControlsByName (c : Ctrl) (ty : String) (names : List String) :
    Nat :=
  let names := names.filter (fun n => n ≠ "")
  if names.isEmpty then 0
  else ((walkCtrls SUBTREE_SCAN_DEPTH c).filter
    (fun x => x.ty == ty && names.contains (ctrlName x))).length

/-- First bounded pre-order match (`_find_first_control_matching`),
returned as a path. -/
def findFirstControlMatching (root : Ctrl) (pred : Ctrl → Bool)
    (maxDepth : Nat) : Option (List Nat) :=
  ((walkPathsCtrls maxDepth [] root).find? (fun pc => pred pc.2)).map
    (fun pc => pc.1)

/-- First bounded match by type and name (`_find_first_by_type_and_name`);
an all-empty name set yields no match. -/
def findFirstByTypeAndName (root : Ctrl) (ty : String)
    (names : List String) (maxDepth : Nat) : Option (List Nat) :=
  let names := names.filter (fun n => n ≠ "")
  if names.isEmpty then none
  else findFirstControlMatching root
    (fun c => c.ty == ty && names.contains (ctrlName c)) maxDepth

/-- Ancestor walk (`_find_ancestor_with`): starting from the addressed
control itself, test up to `fuel` controls walking parent links. -/
def findAncestorWith (root : Ctrl) (p : List Nat) (pred : Ctrl → Bool) :
    Nat → Option (List Nat)
  | 0 => none
  | fuel + 1 =>
      match subtreeAt root p with
      | none => none
      | some c =>
          if pred c then some p
          else
            match parentPath p with
            | none => none
            | some pp => findAncestorWith root pp pred fuel

/-- Session-container structural predicate
(`_looks_like_session_container`). -/
def looksLikeSessionContainer (c : Ctrl) (labels : LayoutLabels) : Bool :=
  hasDescByTypeAndName c "EditControl" labels.session_search_names &&
  hasDescByTypeAndName c "ListControl" labels.session_list_names

/-- Chat-container structural predicate (`_looks_like_chat_container`). -/
def looksLikeChatContainer (c : Ctrl) (labels : LayoutLabels) : Bool :=
  let has_edit := hasDescByType c "EditControl"
  let has_message_list :=
    hasDescByTypeAndName c "ListControl" labels.message_list_names
  let has_send :=
    hasDescByTypeAndName c "ButtonControl" labels.send_button_names
  has_edit && (has_message_list || has_send)

/-- Session-region discovery (`_find_session_container`). -/
def findSessionContainer (root : Ctrl) (labels : LayoutLabels)
    (maxDepth : Nat) : Option (List Nat) :=
  let tier1 :=
    match findFirstByTypeAndName root "ListControl"
        labels.session_list_names maxDepth with
    | some p =>
        findAncestorWith root p (fun c => looksLikeSessionContainer c labels) 10
    | none => none
  match tier1 with
  | some cand => some cand
  | none =>
      let tier2 :=
        match findFirstByTypeAndName root "EditControl"
            labels.session_search_names maxDepth with
        | some p =>
            findAncestorWith root p
              (fun c => looksLikeSessionContainer c labels) 10
        | none => none
      match tier2 with
      | some cand => some cand
      | none =>
          findFirstControlMatching root
            (fun c => looksLikeSessionContainer c labels) maxDepth

/-- Chat-region discovery (`_find_chat_container`). -/
def findChatContainer (root : Ctrl) (labels : LayoutLabels)
    (maxDepth : Nat) : Option (List Nat) :=
  let tier1 :=
    match findFirstByTypeAndName root "ListControl"
        labels.message_list_names maxDepth with
    | some p =>
        findAncestorWith root p (fun c => looksLikeChatContainer c labels) 10
    | none => none
  match tier1 with
  | some cand => some cand
  | none =>
      let tier2 :=
        match findFirstByTypeAndName root "ButtonControl"
            labels.send_button_names maxDepth with
        | some p =>
            findAncestorWith root p
              (fun c => looksLikeChatContainer c labels) 10
        | none => none
      match tier2 with
      | some cand => some cand
      | none =>
          findFirstControlMatching root
            (fun c => looksLikeChatContainer c labels) maxDepth

/-- Navigation-region discovery (`_find_navigation_container`). -/
def findNavigationContainer (root : Ctrl) (labels : LayoutLabels)
    (maxDepth : Nat) : Option (List Nat) :=
  match findFirstByTypeAndName root "ButtonControl"
      labels.navigation_button_names maxDepth with
  | some p =>
      match findAncestorWith root p
          (fun c =>
            countControlsByName c "ButtonControl"
              labels.navigation_button_names ≥ 3) 10 with
      | some cand => some cand
      | none => parentPath p
  | none =>
      findFirstControlMatching root
        (fun c =>
          countControlsByName c "ButtonControl"
            labels.navigation_button_names ≥ 3) maxDepth

/-- Structure returned by `discover_main_controls` (paths; `none` =
undiscoverable region). -/
structure MainControls where
  navigation : Option (List Nat)
  session : Option (List Nat)
  chat : Option (List Nat)

/-- Top-level discovery (`discover_main_controls`). -/
def discover_main_controls (root : Ctrl) (labels : LayoutLabels) :
    MainControls :=
  let session := findSessionContainer root labels DEFAULT_MAX_DEPTH
  let chat := findChatContainer root labels DEFAULT_MAX_DEPTH
  let navigation := findNavigationContainer root labels DEFAULT_MAX_DEPTH
  { navigation := navigation, session := session, chat := chat }

/-! ### Message ingest and dedup (`handle_incoming_message` and helpers) -/

/-- First attribute in probe order that is a string with non-empty strip,
returned stripped (`extract_message_text` / `extract_sender_name` probe
pattern). -/
def firstAttrText : List (Option String) → String
  | [] => ""
  | some v :: rest => if pyStrip v ≠ "" then pyStrip v else firstAttrText rest
  | none :: rest => firstAttrText rest

/-- Text extraction (`extract_message_text`) over the attribute-object
message shape: probe `text`, `content`, `msg`, `message` in order. -/
def extract_message_text (m : RawMessage) : String :=
  firstAttrText [m.text, m.content, m.msg, m.message]

/-- Sender extraction (`extract_sender_name`): probe `sender_remark`,
`sender`, `name`, `from_user` in order. -/
def extract_sender_name (m : RawMessage) : String :=
  firstAttrText [m.sender_remark, m.sender, m.name, m.from_user]

/-- First present attribute whose stripped string form is non-empty
(`extract_msg_id` probe pattern). -/
def firstIdAttr : List (Option String) → Option String
  | [] => none
  | some v :: rest => if pyStrip v ≠ "" then some (pyStrip v) else firstIdAttr rest
  | none :: rest => firstIdAttr rest

/-- Message-id extraction (`extract_msg_id`): probe `msg_id` then `id`. -/
def extract_msg_id (m : RawMessage) : Option String :=
  firstIdAttr [m.msg_id, m.id]

/-- Python `a or b` on optional strings where `None` and `""` are falsy. -/
def pyOr (a b : Option String) : Option String :=
  match a with
  | some s => if s = "" then b else some s
  | none => b

/-- Chat-title resolution (`resolve_chat_title`): `chat_name` or
`chat_remark` from ChatInfo when a non-blank string, else the fallback. -/
def resolve_chat_title (chat : Chat) (fallback : String) : String :=
  match chat.chatInfo with
  | some info =>
      match pyOr info.chat_name info.chat_remark with
      | some t => if pyStrip t ≠ "" then pyStrip t else fallback
      | none => fallback
  | none => fallback

/-- Group-classification resolution (`resolve_is_group`). -/
def resolve_is_group (chat : Chat) (kind : String) : Bool :=
  if kind = "group" then true
  else if kind = "direct" then false
  else
    match chat.chatInfo with
    | some info => info.chat_type = some "group"
    | none => false

/-- Dedup key (`key = msg_id or (str(msg_hash) if msg_hash else
f"{sender}:{text}")`). -/
def dedupKey (m : RawMessage) : String :=
  match extract_msg_id m with
  | some i => i
  | none =>
      match m.hash with
      | some h =>
          if h ≠ "" then h
          else extract_sender_name m ++ ":" ++ extract_message_text m
      | none => extract_sender_name m ++ ":" ++ extract_message_text m

/-- Message ingest (`handle_incoming_message`): reject text-less messages,
suppress per-conversation duplicates by dedup key, otherwise record the
key and emit one `message.new` event. -/
def handle_incoming_message (a : Agent) (m : RawMessage) (chat : Chat)
    (chat_name : String) : Agent × List Eff :=
  let text := extract_message_text m
  if text = "" then (a, [])
  else
    let msg_id := extract_msg_id m
    let key := dedupKey m
    if alookup a.state.last_message_keys chat_name = some key then (a, [])
    else
      let a :=
        { a with state := { a.state with
            last_message_keys :=
              ainsert a.state.last_message_keys chat_name key } }
      let kind := (alookup a.state.active_kinds chat_name).getD "unknown"
      let chat_title := resolve_chat_title chat chat_name
      let sender := extract_sender_name m
      send_with_ack a "message.new"
        [("chat_id", JVal.str chat_title),
         ("chat_title", JVal.str chat_title),
         ("is_group", JVal.bool (resolve_is_group chat kind)),
         ("sender_name", JVal.str (if sender ≠ "" then sender else chat_title)),
         ("text", JVal.str text),
         ("timestamp", JVal.int a.now),
         ("msg_id", match msg_id with
                    | some i => JVal.str i
                    | none => JVal.null)]

/-- Discards the buffered incoming messages (`clear_message_queue`). -/
def clear_message_queue (a : Agent) : Agent :=
  { a with msgQueue := [] }

/-! ### Listener reconciliation (`reconcile_listeners` and helpers) -/

/-- Provider acquisition (`STATE.wx or try_ensure_wechat()`): reuse the
stored handle; otherwise try to construct one, reporting a LISTEN_FAILED
error on failure.  The Bool says whether a provider is now available. -/
def try_ensure_wechat (a : Agent) (w : World) : Agent × List Eff × Bool :=
  if a.state.wx then (a, [], true)
  else if w.ensure_ok then
    ({ a with state := { a.state with wx := true } }, [], true)
  else
    let (a1, effs) := emit_error a "LISTEN_FAILED" w.ensure_err true
    (a1, effs, false)

/-- Best-effort removal of all active listeners
(`clear_active_listeners`): provider removals only when a handle exists;
bookkeeping cleared either way. -/
def clear_active_listeners (a : Agent) : Agent × List Eff :=
  let effs :=
    if a.state.wx then
      a.state.active_targets.map (fun p => Eff.removeListen p.2)
    else []
  ({ a with state :=
      { a.state with active_targets := [], active_kinds := [] } }, effs)

/-- Removal phase of `reconcile_listeners`: iterate the snapshot of
active keys; drop (and remove from the provider) each one no longer
desired. -/
def removalLoop (desired : List (String × String)) :
    List String → Agent → Agent × List Eff
  | [], a => (a, [])
  | t :: rest, a =>
      if (alookup desired t).isSome then removalLoop desired rest a
      else
        match alookup a.state.active_targets t with
        | some actual =>
            let a1 := { a with state := { a.state with
                active_targets := aerase a.state.active_targets t } }
            if actual ≠ "" then
              let a2 := { a1 with state := { a1.state with
                  active_kinds := aerase a1.state.active_kinds actual } }
              let r := removalLoop desired rest a2
              (r.1, Eff.removeListen actual :: r.2)
            else removalLoop desired rest a1
        | none => removalLoop desired rest a

/-- Resolved chat handle of a successful add
(`getattr(result, "who", None) or target_name`). -/
def chatNameOf (who : Option String) (t : String) : String :=
  match who with
  | some s => if s ≠ "" then s else t
  | none => t

/-- Addition phase of `reconcile_listeners`: for each desired target not
yet active, call the provider; report per-target failures and continue;
record resolved handle and kind on success. -/
def additionLoop (w : World) :
    List (String × String) → Agent → Agent × List Eff
  | [], a => (a, [])
  | (t, k) :: rest, a =>
      if (alookup a.state.active_targets t).isSome then
        additionLoop w rest a
      else
        match w.add t with
        | AddResult.raises msg =>
            let e := emit_error a "LISTEN_TARGET_FAILED" (t ++ ": " ++ msg) true
            let r := additionLoop w rest e.1
            (r.1, Eff.addListen t :: (e.2 ++ r.2))
        | AddResult.returns hasCI who =>
            if hasCI = false then
              let e := emit_error a "LISTEN_TARGET_FAILED"
                (t ++ ": 无法监听该会话") true
              let r := additionLoop w rest e.1
              (r.1, Eff.addListen t :: (e.2 ++ r.2))
            else
              let chat_name := chatNameOf who t
              let a1 := { a with state := { a.state with
                  active_targets := ainsert a.state.active_targets t chat_name,
                  active_kinds := ainsert a.state.active_kinds chat_name k } }
              let r := additionLoop w rest a1
              (r.1, Eff.addListen t :: r.2)

/-- Listener reconciliation (`reconcile_listeners`). -/
def reconcile_listeners (a0 : Agent) (w : World)
    (desired : List (String × String)) (allow_add : Bool) :
    Agent × List Eff :=
  let te := try_ensure_wechat a0 w
  if te.2.2 = false then (te.1, te.2.1)
  else
    let rem := removalLoop desired (akeys te.1.state.active_targets) te.1
    if allow_add = false then (rem.1, te.2.1 ++ rem.2)
    else
      let add := additionLoop w desired rem.1
      (add.1, te.2.1 ++ rem.2 ++ add.2)

/-- Target replacement (`set_listen_targets`): normalize, store as the
desired map, reconcile. -/
def set_listen_targets (a : Agent) (w : World) (raw : RawTargets)
    (allow_add : Bool) : Agent × List Eff :=
  let normalized := normalize_listen_targets raw
  let desired := normalized.map (fun e => (e.name, e.kind))
  let a1 := { a with state := { a.state with listen_targets := desired } }
  reconcile_listeners a1 w desired allow_add

/-! ### Text injection and chat listing -/

/-- Text injection (`write_input`): provider acquisition, best-effort
chat activation, clipboard module import, save-copy-paste-restore; the
outcome is reported once via `input.result`. -/
def write_input (a : Agent) (w : World) (chat_id text : String)
    (restore : Bool) : Agent × List Eff :=
  if a.state.wx = false ∧ w.ensure_ok = false then
    let e := emit_error a "WRITE_FAILED" w.ensure_err true
    let r := send_with_ack e.1 "input.result"
      [("ok", JVal.bool false), ("error", JVal.str w.ensure_err)]
    (r.1, e.2 ++ r.2)
  else
    let a := if a.state.wx then a
      else { a with state := { a.state with wx := true } }
    if w.clip_import_ok = false then
      let r := send_with_ack a "input.result"
        [("ok", JVal.bool false), ("error", JVal.str w.import_err)]
      (r.1, Eff.chatWith chat_id :: r.2)
    else
      let previous := if restore then w.clip_paste else none
      let r :=
        if w.clip_copy_ok then
          send_with_ack a "input.result"
            [("ok", JVal.bool true), ("error", JVal.str "")]
        else
          send_with_ack a "input.result"
            [("ok", JVal.bool false), ("error", JVal.str w.copy_err)]
      let mainEffs :=
        if w.clip_copy_ok then
          [Eff.clipCopy text, Eff.hotkeyPaste] ++ r.2
        else [Eff.clipCopy text] ++ r.2
      let restoreEffs :=
        match previous with
        | some prev => if restore then [Eff.clipCopy prev] else []
        | none => []
      (r.1, Eff.chatWith chat_id :: (mainEffs ++ restoreEffs))

/-- Conversation enumeration (`list_recent_chats`), returning the cleaned
session names. -/
def list_recent_chats (a : Agent) (w : World) :
    Agent × List Eff × List String :=
  let te := try_ensure_wechat a w
  if te.2.2 = false then (te.1, te.2.1, [])
  else
    match w.sessions with
    | none =>
        let e := emit_error te.1 "CHAT_LIST_FAILED" w.sessions_err true
        (e.1, te.2.1 ++ e.2, [])
    | some items =>
        (te.1, te.2.1,
         items.filterMap (fun o =>
           match o with
           | some n => if pyStrip n ≠ "" then some (pyStrip n) else none
           | none => none))

/-! ### Command dispatcher (`handle_command`) -/

/-- Inbound command payload fields used by the dispatcher.  Optional
fields are `none` when absent or of the wrong runtime type; `chat_id`,
`text` and `request_id` are already through `str(...)` (default `""`). -/
structure CmdPayload where
  ack_id : Option String := none
  poll_interval_ms : Option ℚ := none
  targets : Option RawTargets := none
  chat_id : String := ""
  text : String := ""
  restore_clipboard : Bool := true
  request_id : String := ""

/-- Inbound command envelope as read by `handle_command`
(`message.get("type", "")`, `message.get("id", "")`). -/
structure Cmd where
  ctype : String := ""
  id : String := ""
  payload : CmdPayload := {}

/-- Dispatcher body: everything `handle_command` does after the receipt
acknowledgement (the source lines from `if msg_type == "listen.start"`
on). -/
def handleCommandBody (a : Agent) (w : World) (msg : Cmd) :
    Agent × List Eff :=
  let payload := msg.payload
  if msg.ctype = "listen.start" ∨ msg.ctype = "listen.resume" then
    let a :=
      match payload.poll_interval_ms with
      | some interval =>
          if interval ≥ 200 then
            { a with state := { a.state with
                poll_interval := max (interval / 1000) (0.2 : ℚ) } }
          else a
      | none => a
    let a := { a with state := { a.state with listening := true } }
    let r :=
      match payload.targets with
      | some t => set_listen_targets a w t true
      | none => reconcile_listeners a w a.state.listen_targets true
    let st := emit_status r.1 "listening" ""
    (st.1, r.2 ++ st.2)
  else if msg.ctype = "listen.pause" then
    let a := { a with state := { a.state with listening := false } }
    let a := clear_message_queue a
    emit_status a "paused" ""
  else if msg.ctype = "listen.stop" then
    let a := { a with state := { a.state with listening := false } }
    let a := clear_message_queue a
    let cl := clear_active_listeners a
    let st := emit_status cl.1 "idle" ""
    (st.1, cl.2 ++ st.2)
  else if msg.ctype = "listen.targets" then
    set_listen_targets a w (payload.targets.getD RawTargets.notList)
      a.state.listening
  else if msg.ctype = "input.write" then
    let chat_id := pyStrip payload.chat_id
    let text := pyStrip payload.text
    if chat_id = "" ∨ text = "" then
      send_with_ack a "input.result"
        [("ok", JVal.bool false),
         ("error", JVal.str "chat_id or text is empty")]
    else write_input a w chat_id text payload.restore_clipboard
  else if msg.ctype = "chats.list" then
    let request_id := pyStrip payload.request_id
    let er :=
      if request_id = "" then
        emit_error a "CHAT_LIST_FAILED" "request_id missing" true
      else (a, [])
    let lc := list_recent_chats er.1 w
    let sr := send_with_ack lc.1 "chats.list.result"
      [("request_id", JVal.str request_id),
       ("chats", JVal.arr (lc.2.2.map (fun n =>
          JVal.obj [("chat_id", JVal.str n), ("chat_title", JVal.str n),
                    ("kind", JVal.str "unknown")])))]
    (sr.1, er.2 ++ lc.2.1 ++ sr.2)
  else (a, [])

/-- Command dispatcher (`handle_command`): inbound acks clear pending
entries and are never themselves acknowledged; every other command with a
non-empty id is acknowledged first, then dispatched. -/
def handle_command (a : Agent) (w : World) (msg : Cmd) : Agent × List Eff :=
  if msg.ctype = "event.ack" then
    match msg.payload.ack_id with
    | some ackId =>
        if (alookup a.state.pending ackId).isSome then
          ({ a with state := { a.state with
              pending := aerase a.state.pending ackId } }, [])
        else (a, [])
    | none => (a, [])
  else if msg.id ≠ "" then
    let ack := send_ack a msg.id true ""
    let r := handleCommandBody ack.1 w msg
    (r.1, ack.2 ++ r.2)
  else handleCommandBody a w msg

/-! ### Reachable agent states -/

/-- Payload of the startup `agent.ready` message sent by `main`. -/
def agentReadyPayload : List (String × JVal) :=
  [("platform", JVal.str "windows"),
   ("agent_version", JVal.str "0.1.0"),
   ("capabilities", JVal.arr
     [JVal.str "listen", JVal.str "write", JVal.str "chats.list"]),
   ("supports_clipboard_restore", JVal.bool true)]

/-- Fresh process state: `STATE = AgentState()`, empty queue. -/
def initialAgent (now : Int) : Agent :=
  { state := {}, msgQueue := [], now := now, freshId := 0 }

/-- Agent states reachable by the process: the fresh state, then any
interleaving of the startup ready message, clock ticks, queued incoming
messages, command dispatches, ingest of buffered messages, and retry
sweeps, under arbitrary world behaviour. -/
inductive Reachable : Agent → Prop where
  | init (now : Int) : Reachable (initialAgent now)
  | ready {a : Agent} : Reachable a →
      Reachable (send_with_ack a "agent.ready" agentReadyPayload).1
  | tick {a : Agent} (now : Int) : Reachable a →
      Reachable { a with now := now }
  | enqueue {a : Agent} (it : Incoming) : Reachable a →
      Reachable { a with msgQueue := a.msgQueue ++ [it] }
  | cmd {a : Agent} (w : World) (c : Cmd) : Reachable a →
      Reachable (handle_command a w c).1
  | incoming {a : Agent} (m : RawMessage) (ch : Chat) (nm : String) :
      Reachable a → Reachable (handle_incoming_message a m ch nm).1
  | sweep {a : Agent} : Reachable a → Reachable (process_pending a).1

/-! ## Theorems -/

/-! ### C1: retry sweep behaviour -/

/-- Per-entry outcome of the retry sweep on the pending map. -/
def pendingStep (now : Int) (ip : String × PendingMessage) :
    Option (String × PendingMessage) :=
  if now - ip.2.sent_at < ACK_TIMEOUT_SECONDS then some ip
  else if ip.2.retries ≥ MAX_ACK_RETRIES then none
  else some (ip.1, { ip.2 with sent_at := now, retries := ip.2.retries + 1 })

/-- Per-entry emission of the retry sweep. -/
def pendingEmit (now : Int) (ip : String × PendingMessage) : Option Eff :=
  if now - ip.2.sent_at < ACK_TIMEOUT_SECONDS then none
  else if ip.2.retries ≥ MAX_ACK_RETRIES then none
  else some (Eff.out ip.2.envelope)

theorem processPendingGo_spec (now : Int)
    (l : List (String × PendingMessage)) :
    processPendingGo now l =
      (l.filterMap (pendingStep now), l.filterMap (pendingEmit now)) := by
  induction l with
  | nil => rfl
  | cons hd tl ih =>
      simp only [processPendingGo, ih, pendingStep, pendingEmit,
        List.filterMap_cons]
      by_cases h1 : now - hd.2.sent_at < ACK_TIMEOUT_SECONDS
      · simp [h1]
      · by_cases h2 : hd.2.retries ≥ MAX_ACK_RETRIES <;> simp [h1, h2]

/-- C1 (amended: an entry whose age has *reached* the 3-unit timeout is
already acted on; strictly younger entries are untouched).  One retry
sweep maps each pending entry independently: entries with
`now - sent_at < 3` are kept unchanged and emit nothing; timed-out
entries with `retries ≥ 3` are dropped and emit nothing; the remaining
timed-out entries re-emit exactly their stored envelope (same id) with
`sent_at` reset to `now` and `retries` incremented. -/
theorem retry_sweep_behaviour (a : Agent) :
    (process_pending a).1.state.pending =
      a.state.pending.filterMap (fun ip =>
        if a.now - ip.2.sent_at < ACK_TIMEOUT_SECONDS then some ip
        else if ip.2.retries ≥ MAX_ACK_RETRIES then none
        else some (ip.1,
          { ip.2 with sent_at := a.now, retries := ip.2.retries + 1 })) ∧
    (process_pending a).2 =
      a.state.pending.filterMap (fun ip =>
        if a.now - ip.2.sent_at < ACK_TIMEOUT_SECONDS then none
        else if ip.2.retries ≥ MAX_ACK_RETRIES then none
        else some (Eff.out ip.2.envelope)) := by
  have h := processPendingGo_spec a.now a.state.pending
  constructor
  · show (processPendingGo a.now a.state.pending).1 = _
    rw [h]
    exact congrFun (congrArg List.filterMap (funext fun ip => rfl)) _
  · show (processPendingGo a.now a.state.pending).2 = _
    rw [h]
    exact congrFun (congrArg List.filterMap (funext fun ip => rfl)) _

/-- Concrete pending entry aged exactly 3 units. -/
def pmC1 : PendingMessage :=
  { envelope := { version := "1.0", etype := "agent.status", id := "m",
                  timestamp := 0, payload := [] },
    sent_at := 0, retries := 0 }

/-- Agent holding `pmC1` with the clock at exactly the timeout. -/
def agentC1 : Agent :=
  { state := { pending := [("m", pmC1)] }, msgQueue := [], now := 3,
    freshId := 0 }

/-- C1 counterexample: an entry whose age equals the timeout has *not
exceeded* it, so the claim says it must be left unchanged with nothing
emitted; the code re-emits it and bumps its retry counter. -/
theorem retry_sweep_acts_at_exact_timeout :
    agentC1.now - pmC1.sent_at ≤ ACK_TIMEOUT_SECONDS ∧
    (process_pending agentC1).2.length = 1 ∧
    (process_pending agentC1).1.state.pending.map
      (fun ip => ip.2.retries) = [1] ∧
    agentC1.state.pending.map (fun ip => ip.2.retries) = [0] := by
  refine ⟨by decide, rfl, rfl, rfl⟩

/-! ### C7: the session-container predicate and send buttons -/

/-- Labels from the repository's layout-fallback test suite. -/
def c7labels : LayoutLabels :=
  { session_list_names := ["会话"], session_search_names := ["搜索"],
    message_list_names := ["消息"], send_button_names := ["发送"],
    navigation_button_names := ["聊天", "通讯录"] }

/-- Pane containing a labelled search box, a labelled session list AND a
labelled send button. -/
def c7node : Ctrl :=
  Ctrl.mk "PaneControl" ""
    [Ctrl.mk "EditControl" "搜索" [], Ctrl.mk "ListControl" "会话" [],
     Ctrl.mk "ButtonControl" "发送" []]

/-- C7: the code's session-container predicate never inspects send
buttons; on a pane that has the labelled search box, the labelled
session list and a labelled send button it answers `true` (classified AS
a session container), although the spec and the repository's own test
suite demand rejection. -/
theorem session_container_accepts_send_button_pane :
    hasDescByTypeAndName c7node "EditControl"
      c7labels.session_search_names = true ∧
    hasDescByTypeAndName c7node "ListControl"
      c7labels.session_list_names = true ∧
    hasDescByTypeAndName c7node "ButtonControl"
      c7labels.send_button_names = true ∧
    looksLikeSessionContainer c7node c7labels = true := by
  refine ⟨by decide, by decide, by decide, by decide⟩

/-! ### C8: chat discovery via the send-button tier -/

/-- C8: in a tree with no list-type control named in the message-list set
(within the bounded scan), whose first matching send button has a
nearest ancestor (10-level walk) satisfying the chat structural
predicate, chat-region discovery returns exactly that ancestor. -/
theorem chat_discovery_send_button_tier (root : Ctrl)
    (labels : LayoutLabels) (bp ap : List Nat)
    (hml : findFirstByTypeAndName root "ListControl"
      labels.message_list_names DEFAULT_MAX_DEPTH = none)
    (hsb : findFirstByTypeAndName root "ButtonControl"
      labels.send_button_names DEFAULT_MAX_DEPTH = some bp)
    (hanc : findAncestorWith root bp
      (fun c => looksLikeChatContainer c labels) 10 = some ap) :
    (discover_main_controls root labels).chat = some ap := by
  simp [discover_main_controls, findChatContainer, hml, hsb, hanc]

/-- Labels of the vendored layout test with an absent message list. -/
def c8labels : LayoutLabels :=
  { session_list_names := ["会话", "折叠的群聊"],
    session_search_names := ["搜索"], message_list_names := ["不存在"],
    send_button_names := ["发送", "发送(S)"],
    navigation_button_names := ["聊天", "通讯录", "收藏"] }

/-- Window with navigation, session and (message-list-less) chat panes. -/
def c8root : Ctrl :=
  Ctrl.mk "WindowControl" ""
    [Ctrl.mk "PaneControl" ""
       [Ctrl.mk "ButtonControl" "聊天" [], Ctrl.mk "ButtonControl" "通讯录" [],
        Ctrl.mk "ButtonControl" "收藏" []],
     Ctrl.mk "PaneControl" ""
       [Ctrl.mk "EditControl" "搜索" [], Ctrl.mk "ListControl" "会话" []],
     Ctrl.mk "PaneControl" ""
       [Ctrl.mk "EditControl" "" [], Ctrl.mk "ButtonControl" "发送" []]]

theorem chat_discovery_send_button_tier_witness :
    findFirstByTypeAndName c8root "ListControl"
      c8labels.message_list_names DEFAULT_MAX_DEPTH = none ∧
    findFirstByTypeAndName c8root "ButtonControl"
      c8labels.send_button_names DEFAULT_MAX_DEPTH = some [2, 1] ∧
    findAncestorWith c8root [2, 1]
      (fun c => looksLikeChatContainer c c8labels) 10 = some [2] ∧
    (discover_main_controls c8root c8labels).chat = some [2] :=
  ⟨by decide, by decide, by decide,
   chat_discovery_send_button_tier c8root c8labels [2, 1] [2]
     (by decide) (by decide) (by decide)⟩

/-! ### C9: main-window selection -/

theorem firstHwnd_eq_find (p : Int × String × String → Bool)
    (l : List (Int × String × String)) :
    firstHwnd p l = (l.find? p).map (fun w => w.1) := by
  induction l with
  | nil => rfl
  | cons hd tl ih =>
      by_cases h : p hd <;> simp [firstHwnd, List.find?_cons, h, ih]

/-- C9: main-window selection restricts to candidates whose title or
class carries an app marker (absent when none do), then prefers, in
order: the first candidate whose executable basename equals
`wechat.exe` case-insensitively; the first whose title is a canonical
title; the first with any non-empty title; the first candidate. -/
theorem select_wechat_main_hwnd_spec
    (windows : List (Int × String × String))
    (paths : List (Int × String)) :
    select_wechat_main_hwnd windows paths =
      (let cands := windows.filter markerMatch
       Option.or ((cands.find? (exeMatch paths)).map (fun w => w.1))
        (Option.or ((cands.find? canonTitleMatch).map (fun w => w.1))
          (Option.or ((cands.find? nonEmptyTitle).map (fun w => w.1))
            ((cands.head?).map (fun w => w.1))))) ∧
    (select_wechat_main_hwnd windows paths = none ↔
      windows.filter markerMatch = []) := by
  constructor
  · simp only [select_wechat_main_hwnd, firstHwnd_eq_find]
    cases h : windows.filter markerMatch with
    | nil => simp
    | cons c0 rest =>
        cases h1 : ((c0 :: rest).find? (exeMatch paths)) <;>
          cases h2 : ((c0 :: rest).find? canonTitleMatch) <;>
            cases h3 : ((c0 :: rest).find? nonEmptyTitle) <;>
              simp [h1, h2, h3, Option.or]
  · simp only [select_wechat_main_hwnd, firstHwnd_eq_find]
    cases h : windows.filter markerMatch with
    | nil => simp
    | cons c0 rest =>
        cases h1 : ((c0 :: rest).find? (exeMatch paths)) <;>
          cases h2 : ((c0 :: rest).find? canonTitleMatch) <;>
            cases h3 : ((c0 :: rest).find? nonEmptyTitle) <;>
              simp [h1, h2, h3]

/-! ### C6: listen-target normalization -/

/-- Stripped name contributed by a raw record (skipping non-dicts and
blank names), as `normalize_listen_targets` computes it. -/
def validName (t : RawTarget) : Option String :=
  match t with
  | RawTarget.notDict => none
  | RawTarget.dict nm _ =>
      let n := pyStrip (nm.getD "")
      if n = "" then none else some n

/-- Stripped name together with the effective raw kind value (missing
kind defaults to "unknown" before folding). -/
def validPair (t : RawTarget) : Option (String × String) :=
  match t with
  | RawTarget.notDict => none
  | RawTarget.dict nm kd =>
      let n := pyStrip (nm.getD "")
      if n = "" then none else some (n, kd.getD "unknown")

/-- Kind folding of `normalize_listen_targets`: strip, lowercase, and
replace anything outside LISTEN_TARGET_KINDS by "unknown". -/
def foldKind (rk : String) : String :=
  let k := pyLower (pyStrip rk)
  if k ∈ LISTEN_TARGET_KINDS then k else "unknown"

/-- Keep the first occurrence of each element, given names already
taken. -/
def dedupFirstGo (seen : List String) : List String → List String
  | [] => []
  | x :: rest =>
      if x ∈ seen then dedupFirstGo seen rest
      else x :: dedupFirstGo (x :: seen) rest

/-- Keep the first occurrence of each element, preserving order. -/
def dedupFirst (l : List String) : List String := dedupFirstGo [] l

/-- Record list underlying a raw targets value. -/
def rawItems : RawTargets → List RawTarget
  | RawTargets.notList => []
  | RawTargets.items l => l

theorem normalizeGo_names (l : List RawTarget) (seen : List String) :
    (normalizeGo l seen).map (fun e => e.name) =
      dedupFirstGo seen (l.filterMap validName) := by
  induction l generalizing seen with
  | nil => rfl
  | cons t rest ih =>
      cases t with
      | notDict => simp [normalizeGo, validName, List.filterMap_cons, ih]
      | dict nm kd =>
          simp only [normalizeGo, validName, List.filterMap_cons]
          by_cases h0 : pyStrip (nm.getD "") = ""
          · simp [h0, ih]
          · by_cases h1 : pyStrip (nm.getD "") ∈ seen
            · simp [h0, h1, dedupFirstGo, ih]
            · simp [h0, h1, dedupFirstGo, ih]

theorem dedupFirstGo_spec (l : List String) (seen : List String) :
    (dedupFirstGo seen l).Nodup ∧ ∀ x ∈ dedupFirstGo seen l, x ∉ seen := by
  induction l generalizing seen with
  | nil => simp [dedupFirstGo]
  | cons x rest ih =>
      by_cases h : x ∈ seen
      · simpa [dedupFirstGo, h] using ih seen
      · have ih' := ih (x :: seen)
        refine ⟨?_, ?_⟩
        · simp only [dedupFirstGo, if_neg h, List.nodup_cons]
          exact ⟨fun hx => by
              have := ih'.2 x hx
              simp at this,
            ih'.1⟩
        · intro y hy
          simp only [dedupFirstGo, if_neg h, List.mem_cons] at hy
          rcases hy with rfl | hy
          · exact h
          · have := ih'.2 y hy
            intro hc
            exact this (List.mem_cons_of_mem _ hc)

theorem normalizeGo_kinds (l : List RawTarget) (seen : List String) :
    ∀ e ∈ normalizeGo l seen,
      e.name ∉ seen ∧
      ∃ rk, (l.filterMap validPair).find? (fun p => p.1 == e.name) =
              some (e.name, rk) ∧
            e.kind = foldKind rk := by
  induction l generalizing seen with
  | nil => simp [normalizeGo]
  | cons t rest ih =>
      cases t with
      | notDict =>
          intro e he
          simpa [validPair, List.filterMap_cons] using
            ih seen e (by simpa [normalizeGo] using he)
      | dict nm kd =>
          intro e he
          simp only [normalizeGo] at he
          by_cases h0 : pyStrip (nm.getD "") = ""
          · have he' := by simpa [h0] using he
            have := ih seen e he'
            simpa [validPair, h0, List.filterMap_cons] using this
          · by_cases h1 : pyStrip (nm.getD "") ∈ seen
            · have he' := by simpa [h0, h1] using he
              have hres := ih seen e he'
              refine ⟨hres.1, ?_⟩
              obtain ⟨rk, hfind, hkind⟩ := hres.2
              refine ⟨rk, ?_, hkind⟩
              have hne : (pyStrip (nm.getD "") == e.name) = false := by
                simp only [beq_eq_false_iff_ne, ne_eq]
                intro hc
                exact hres.1 (hc ▸ h1)
              simpa [validPair, h0, List.filterMap_cons, List.find?_cons,
                hne] using hfind
            · have he' : e = ⟨pyStrip (nm.getD ""),
                  foldKind (kd.getD "unknown")⟩ ∨
                  e ∈ normalizeGo rest (pyStrip (nm.getD "") :: seen) := by
                have := he
                simp only [h0, h1, or_self, if_false] at this
                simpa [foldKind, List.mem_cons] using this
              rcases he' with rfl | hmem
              · refine ⟨h1, kd.getD "unknown", ?_, rfl⟩
                simp [validPair, h0, List.filterMap_cons, List.find?_cons]
              · have hres := ih (pyStrip (nm.getD "") :: seen) e hmem
                have hnm : e.name ≠ pyStrip (nm.getD "") := by
                  intro hc
                  exact hres.1 (by simp [hc])
                refine ⟨fun hc => hres.1 (List.mem_cons_of_mem _ hc), ?_⟩
                obtain ⟨rk, hfind, hkind⟩ := hres.2
                refine ⟨rk, ?_, hkind⟩
                have hne : (pyStrip (nm.getD "") == e.name) = false := by
                  simp only [beq_eq_false_iff_ne, ne_eq]
                  exact fun hc => hnm hc.symm
                simpa [validPair, h0, List.filterMap_cons, List.find?_cons,
                  hne] using hfind

theorem mem_filterMap_validPair_ne_empty {l : List RawTarget}
    {p : String × String} (hp : p ∈ l.filterMap validPair) : p.1 ≠ "" := by
  rcases List.mem_filterMap.1 hp with ⟨t, _, ht⟩
  cases t with
  | notDict => simp [validPair] at ht
  | dict nm kd =>
      simp only [validPair] at ht
      by_cases h0 : pyStrip (nm.getD "") = ""
      · simp [h0] at ht
      · simp only [h0, if_false] at ht
        cases ht
        simpa using h0

/-- C6: normalization output has unique names; the name sequence is
exactly the order-preserving first-occurrence dedup of the stripped
non-empty names of the dict records (so names are stripped, non-empty,
first occurrence wins); and every entry's kind comes from the first
record with that name, stripped, lowercased, and folded to "unknown"
when unrecognized or missing. -/
theorem listen_target_normalization (raw : RawTargets) :
    ((normalize_listen_targets raw).map (fun e => e.name)).Nodup ∧
    (normalize_listen_targets raw).map (fun e => e.name) =
      dedupFirst ((rawItems raw).filterMap validName) ∧
    ∀ e ∈ normalize_listen_targets raw,
      e.name ≠ "" ∧ e.kind ∈ LISTEN_TARGET_KINDS ∧
      ∃ rk, ((rawItems raw).filterMap validPair).find?
              (fun p => p.1 == e.name) = some (e.name, rk) ∧
            e.kind = foldKind rk := by
  have hbody : normalize_listen_targets raw = normalizeGo (rawItems raw) [] := by
    cases raw <;> rfl
  rw [hbody]
  refine ⟨?_, ?_, ?_⟩
  · rw [normalizeGo_names]
    exact (dedupFirstGo_spec _ _).1
  · exact normalizeGo_names _ _
  · intro e he
    have h := normalizeGo_kinds (rawItems raw) [] e he
    obtain ⟨rk, hfind, hkind⟩ := h.2
    refine ⟨?_, ?_, rk, hfind, hkind⟩
    · have hp : (e.name, rk) ∈ (rawItems raw).filterMap validPair :=
        List.mem_of_find?_eq_some hfind
      exact mem_filterMap_validPair_ne_empty hp
    · rw [hkind]
      simp only [foldKind]
      split
      · assumption
      · simp [LISTEN_TARGET_KINDS]

/-! ### Association-list lemmas shared by the protocol proofs -/

theorem alookup_ainsert_self {β : Type} (m : List (String × β)) (k : String)
    (v : β) : alookup (ainsert m k v) k = some v := by
  induction m with
  | nil => simp [ainsert, alookup]
  | cons hd tl ih =>
      by_cases h : hd.1 = k
      · cases hd
        simp_all [ainsert, alookup]
      · cases hd
        simp_all [ainsert, alookup]

theorem alookup_ainsert_ne {β : Type} (m : List (String × β))
    (k k' : String) (v : β) (h : k ≠ k') :
    alookup (ainsert m k v) k' = alookup m k' := by
  induction m with
  | nil => simp [ainsert, alookup, h]
  | cons hd tl ih =>
      by_cases hh : hd.1 = k
      · cases hd
        simp_all [ainsert, alookup]
      · cases hd
        simp_all [ainsert, alookup]

/-! ### C2: receipt acknowledgement ordering -/

/-- Concrete world where every external operation succeeds. -/
def wOk : World :=
  { ensure_ok := true, ensure_err := "",
    add := fun _ => AddResult.returns true (some "W"),
    sessions := some [], sessions_err := "",
    clip_import_ok := true, import_err := "",
    clip_paste := none, clip_copy_ok := true, copy_err := "" }

/-- C2 (amended: every command type other than `event.ack`).  For a
command with a non-empty id whose type is not `event.ack`, the
dispatcher's whole observable run is the receipt `event.ack`
(acknowledging exactly that id, stamped from the unmutated agent)
followed by the dispatch body run on an agent whose `AgentState` is
untouched (only the uuid counter advanced): the ack precedes every state
mutation, provider call and other outbound message. -/
theorem ack_precedes_dispatch (a : Agent) (w : World) (msg : Cmd)
    (hty : msg.ctype ≠ "event.ack") (hid : msg.id ≠ "") :
    handle_command a w msg =
      (let a1 : Agent := { a with freshId := a.freshId + 1 }
       let r := handleCommandBody a1 w msg
       (r.1,
        Eff.out
          { version := "1.0", etype := "event.ack",
            id := "uuid-" ++ toString a.freshId, timestamp := a.now,
            payload := [("ack_id", JVal.str msg.id),
                        ("ok", JVal.bool true),
                        ("error", JVal.str "")] } :: r.2)) := by
  simp [handle_command, hty, hid, send_ack, mkEnvelope]

/-- Concrete command exercising `ack_precedes_dispatch`. -/
def cmdC2w : Cmd := { ctype := "listen.pause", id := "cmd-1", payload := {} }

theorem ack_precedes_dispatch_witness :
    cmdC2w.ctype = "listen.pause" ∧ cmdC2w.id = "cmd-1" ∧
    handle_command (initialAgent 5) wOk cmdC2w =
      (let a1 : Agent := { initialAgent 5 with freshId := 0 + 1 }
       let r := handleCommandBody a1 wOk cmdC2w
       (r.1,
        Eff.out
          { version := "1.0", etype := "event.ack",
            id := "uuid-" ++ toString 0, timestamp := 5,
            payload := [("ack_id", JVal.str cmdC2w.id),
                        ("ok", JVal.bool true),
                        ("error", JVal.str "")] } :: r.2)) :=
  ⟨rfl, rfl,
   ack_precedes_dispatch (initialAgent 5) wOk cmdC2w (by decide) (by decide)⟩

/-- Pending entry awaiting the host's acknowledgement. -/
def pmC2 : PendingMessage :=
  { envelope := { version := "1.0", etype := "agent.status", id := "p",
                  timestamp := 0, payload := [] },
    sent_at := 0, retries := 0 }

/-- Agent with one pending entry. -/
def agentC2 : Agent :=
  { state := { pending := [("p", pmC2)] }, msgQueue := [], now := 0,
    freshId := 0 }

/-- Inbound `event.ack` command that itself carries a non-empty id. -/
def cmdC2 : Cmd :=
  { ctype := "event.ack", id := "x", payload := { ack_id := some "p" } }

/-- C2 counterexample: an inbound `event.ack` with a non-empty id is
dispatched with a state mutation (the pending entry is cleared) and no
outbound message at all — no `event.ack` acknowledging it is ever
emitted, so receipt acknowledgement is not unconditional across command
types. -/
theorem ack_command_not_acknowledged :
    cmdC2.id = "x" ∧
    (handle_command agentC2 wOk cmdC2).2 = [] ∧
    akeys (handle_command agentC2 wOk cmdC2).1.state.pending = [] ∧
    akeys agentC2.state.pending = ["p"] := by
  exact ⟨rfl, rfl, rfl, rfl⟩

/-! ### C5: message ingest and dedup -/

/-- Types of the outbound envelopes within an effect trace. -/
def effOutTypes (effs : List Eff) : List String :=
  effs.filterMap (fun e =>
    match e with
    | Eff.out env => some env.etype
    | _ => none)

/-- C5 (amended: restricted to buffered messages with non-empty
extracted text, which are the only ones `handle_incoming_message`
processes past the text guard).  The dedup key prefers the explicit
message id, else a non-empty content hash, else `sender:text`; a message
whose key equals the conversation's recorded key leaves the agent
untouched and emits nothing; otherwise the record is updated to the new
key and exactly one outbound event is emitted, of type `message.new`;
consequently an immediately following message with the same derived key
in the same conversation is suppressed entirely. -/
theorem ingest_suppresses_duplicate (a : Agent) (m : RawMessage)
    (chat : Chat) (nm : String)
    (hdup : alookup a.state.last_message_keys nm = some (dedupKey m)) :
    handle_incoming_message a m chat nm = (a, []) := by
  by_cases htext : extract_message_text m = ""
  · simp [handle_incoming_message, htext]
  · simp [handle_incoming_message, htext, dedupKey] at hdup ⊢
    simp [hdup]

theorem message_ingest_dedup (a : Agent) (m : RawMessage) (chat : Chat)
    (nm : String) (htext : extract_message_text m ≠ "") :
    (∀ i, extract_msg_id m = some i → dedupKey m = i) ∧
    (∀ h, extract_msg_id m = none → m.hash = some h → h ≠ "" →
      dedupKey m = h) ∧
    (extract_msg_id m = none → (m.hash = none ∨ m.hash = some "") →
      dedupKey m =
        extract_sender_name m ++ ":" ++ extract_message_text m) ∧
    (alookup a.state.last_message_keys nm = some (dedupKey m) →
      handle_incoming_message a m chat nm = (a, [])) ∧
    (alookup a.state.last_message_keys nm ≠ some (dedupKey m) →
      alookup (handle_incoming_message a m chat nm).1.state.last_message_keys
          nm = some (dedupKey m) ∧
      effOutTypes (handle_incoming_message a m chat nm).2 =
        ["message.new"] ∧
      (handle_incoming_message a m chat nm).2.length = 1 ∧
      ∀ m2 chat2, extract_message_text m2 ≠ "" →
        dedupKey m2 = dedupKey m →
        handle_incoming_message (handle_incoming_message a m chat nm).1 m2
            chat2 nm =
          ((handle_incoming_message a m chat nm).1, [])) := by
  refine ⟨?_, ?_, ?_, ?_, ?_⟩
  · intro i hi
    simp [dedupKey, hi]
  · intro h hid hh hne
    simp [dedupKey, hid, hh, hne]
  · intro hid hh
    rcases hh with hh | hh <;> simp [dedupKey, hid, hh]
  · exact ingest_suppresses_duplicate a m chat nm
  · intro hfresh
    have hrun :
        handle_incoming_message a m chat nm =
          (let a1 : Agent :=
            { a with state := { a.state with
                last_message_keys :=
                  ainsert a.state.last_message_keys nm (dedupKey m) } }
           send_with_ack a1 "message.new"
            [("chat_id", JVal.str (resolve_chat_title chat nm)),
             ("chat_title", JVal.str (resolve_chat_title chat nm)),
             ("is_group", JVal.bool (resolve_is_group chat
                ((alookup a1.state.active_kinds nm).getD "unknown"))),
             ("sender_name", JVal.str
                (if extract_sender_name m ≠ "" then extract_sender_name m
                 else resolve_chat_title chat nm)),
             ("text", JVal.str (extract_message_text m)),
             ("timestamp", JVal.int a1.now),
             ("msg_id", match extract_msg_id m with
                        | some i => JVal.str i
                        | none => JVal.null)]) := by
      simp [handle_incoming_message, htext, dedupKey] at hfresh ⊢
      simp [hfresh]
    refine ⟨?_, ?_, ?_, ?_⟩
    · rw [hrun]
      simp [send_with_ack, mkEnvelope, alookup_ainsert_self]
    · rw [hrun]
      simp [send_with_ack, mkEnvelope, effOutTypes]
    · rw [hrun]
      simp [send_with_ack, mkEnvelope]
    · intro m2 chat2 htext2 hkey
      have hlast :
          alookup (handle_incoming_message a m chat nm).1.state.last_message_keys
            nm = some (dedupKey m) := by
        rw [hrun]
        simp [send_with_ack, mkEnvelope, alookup_ainsert_self]
      exact ingest_suppresses_duplicate _ m2 chat2 nm (by rw [hkey]; exact hlast)

/-- Message with an explicit id used for the dedup witness. -/
def mC5w : RawMessage := { text := some " hi ", sender := some "Bob",
                           msg_id := some "m1" }

theorem message_ingest_dedup_witness :
    extract_message_text mC5w = "hi" ∧
    alookup (handle_incoming_message (initialAgent 7) mC5w {}
        "chat-a").1.state.last_message_keys "chat-a" =
      some (dedupKey mC5w) ∧
    effOutTypes (handle_incoming_message (initialAgent 7) mC5w {}
        "chat-a").2 = ["message.new"] ∧
    (handle_incoming_message (initialAgent 7) mC5w {} "chat-a").2.length
      = 1 ∧
    handle_incoming_message
        (handle_incoming_message (initialAgent 7) mC5w {} "chat-a").1
        mC5w {} "chat-a" =
      ((handle_incoming_message (initialAgent 7) mC5w {} "chat-a").1,
       []) := by
  have h := (message_ingest_dedup (initialAgent 7) mC5w {} "chat-a"
    (by decide)).2.2.2.2 (by decide)
  exact ⟨rfl, h.1, h.2.1, h.2.2.1, h.2.2.2 mC5w {} (by decide) rfl⟩

/-- Text-less message carrying an explicit id. -/
def mC5 : RawMessage := { msg_id := some "m1" }

/-- C5 counterexample: a buffered message with no extractable text but a
fresh dedup key (its id differs from the conversation's recorded key) is
dropped by the text guard: no `message.new` is emitted and the last-key
record is not updated, where the claim requires exactly one event and an
updated record. -/
theorem ingest_skips_textless_message :
    extract_message_text mC5 = "" ∧
    dedupKey mC5 = "m1" ∧
    alookup (initialAgent 0).state.last_message_keys "c" = none ∧
    handle_incoming_message (initialAgent 0) mC5 {} "c" =
      (initialAgent 0, []) := by
  exact ⟨rfl, rfl, rfl, rfl⟩

/-! ### Reconciliation lemmas shared by C3, C4 and C10 -/

theorem alookup_aerase_self {β : Type} (m : List (String × β)) (k : String) :
    alookup (aerase m k) k = none := by
  induction m with
  | nil => rfl
  | cons hd tl ih =>
      by_cases h : hd.1 = k
      · simpa [aerase, h] using ih
      · simpa [aerase, alookup, h] using ih


theorem alookup_aerase_ne {β : Type} (m : List (String × β))
    (k k' : String) (h : k ≠ k') :
    alookup (aerase m k) k' = alookup m k' := by
  induction m with
  | nil => rfl
  | cons hd tl ih =>
      by_cases hh : hd.1 = k
      · have hstep : aerase (hd :: tl) k = aerase tl k := by
          simp [aerase, hh]
        rw [hstep, ih]
        have hne : hd.1 ≠ k' := by rw [hh]; exact h
        simp [alookup, hne]
      · have hstep : aerase (hd :: tl) k = hd :: aerase tl k := by
          simp [aerase, hh]
        rw [hstep]
        by_cases hk : hd.1 = k'
        · simp [alookup, hk]
        · simp [alookup, hk, ih]

theorem alookup_isSome_of_mem {β : Type} {m : List (String × β)}
    {t : String} {v : β} (h : (t, v) ∈ m) : (alookup m t).isSome := by
  induction m with
  | nil => simp at h
  | cons hd tl ih =>
      rcases List.mem_cons.1 h with rfl | h'
      · simp [alookup]
      · by_cases hh : hd.1 = t <;> simp [alookup, hh, ih h']

theorem mem_akeys_of_alookup_isSome {β : Type} {m : List (String × β)}
    {t : String} (h : (alookup m t).isSome) : t ∈ akeys m := by
  induction m with
  | nil => simp [alookup] at h
  | cons hd tl ih =>
      by_cases hh : hd.1 = t
      · simp [akeys, hh]
      · simp only [alookup, hh, if_false] at h
        exact List.mem_cons_of_mem _ (ih h)

theorem alookup_isSome_of_mem_akeys {β : Type} {m : List (String × β)}
    {t : String} (h : t ∈ akeys m) : (alookup m t).isSome := by
  induction m with
  | nil => simp [akeys] at h
  | cons hd tl ih =>
      by_cases hh : hd.1 = t
      · simp [alookup, hh]
      · simp only [akeys, List.map_cons, List.mem_cons] at h
        rcases h with h | h
        · exact absurd h.symm hh
        · simpa [alookup, hh] using ih h

theorem send_with_ack_fields (a : Agent) (ty : String)
    (p : List (String × JVal)) :
    (send_with_ack a ty p).1.state.wx = a.state.wx ∧
    (send_with_ack a ty p).1.state.active_targets =
      a.state.active_targets ∧
    (send_with_ack a ty p).1.state.active_kinds = a.state.active_kinds ∧
    (send_with_ack a ty p).1.state.listen_targets =
      a.state.listen_targets :=
  ⟨rfl, rfl, rfl, rfl⟩

theorem emit_error_fields (a : Agent) (code msg : String) (rec : Bool) :
    (emit_error a code msg rec).1.state.wx = a.state.wx ∧
    (emit_error a code msg rec).1.state.active_targets =
      a.state.active_targets ∧
    (emit_error a code msg rec).1.state.active_kinds =
      a.state.active_kinds ∧
    (emit_error a code msg rec).1.state.listen_targets =
      a.state.listen_targets :=
  ⟨rfl, rfl, rfl, rfl⟩

theorem emit_error_effs (a : Agent) (code msg : String) (rec : Bool) :
    (emit_error a code msg rec).2 =
      [Eff.out
        { version := "1.0", etype := "agent.error",
          id := "uuid-" ++ toString a.freshId, timestamp := a.now,
          payload := [("code", JVal.str code), ("message", JVal.str msg),
                      ("recoverable", JVal.bool rec)] }] := rfl

theorem try_ensure_wx_true (a : Agent) (w : World) (h : a.state.wx = true) :
    try_ensure_wechat a w = (a, [], true) := by
  simp [try_ensure_wechat, h]

theorem try_ensure_active (a : Agent) (w : World) :
    (try_ensure_wechat a w).1.state.active_targets =
      a.state.active_targets ∧
    (try_ensure_wechat a w).1.state.active_kinds = a.state.active_kinds ∧
    (try_ensure_wechat a w).1.state.listen_targets =
      a.state.listen_targets := by
  by_cases h1 : a.state.wx <;> by_cases h2 : w.ensure_ok <;>
    simp [try_ensure_wechat, h1, h2, emit_error_fields]

theorem try_ensure_wx_cases (a : Agent) (w : World) :
    (try_ensure_wechat a w).1.state.wx = a.state.wx ∨
    (try_ensure_wechat a w).1.state.wx = true := by
  by_cases h1 : a.state.wx <;> by_cases h2 : w.ensure_ok <;>
    simp [try_ensure_wechat, h1, h2, emit_error_fields]

theorem try_ensure_ok_wx (a : Agent) (w : World)
    (h : (try_ensure_wechat a w).2.2 = true) :
    (try_ensure_wechat a w).1.state.wx = true := by
  by_cases h1 : a.state.wx
  · simp [try_ensure_wechat, h1]
  · by_cases h2 : w.ensure_ok
    · simp [try_ensure_wechat, h1, h2]
    · simp [try_ensure_wechat, h1, h2] at h

theorem try_ensure_fail_wx (a : Agent) (w : World)
    (h : (try_ensure_wechat a w).2.2 = false) :
    a.state.wx = false ∧ (try_ensure_wechat a w).1.state.wx = false := by
  by_cases h1 : a.state.wx
  · simp [try_ensure_wechat, h1] at h
  · by_cases h2 : w.ensure_ok
    · simp [try_ensure_wechat, h1, h2] at h
    · simp only [Bool.not_eq_true] at h1
      exact ⟨h1, by simp [try_ensure_wechat, h1, h2, emit_error_fields]⟩

/-! Step equations for removalLoop. -/

theorem removalLoop_cons_desired {d : List (String × String)} {t : String}
    (ks : List String) (a : Agent) (h1 : (alookup d t).isSome) :
    removalLoop d (t :: ks) a = removalLoop d ks a := by
  simp [removalLoop, h1]

theorem removalLoop_cons_missing {d : List (String × String)} {t : String}
    (ks : List String) (a : Agent) (h1 : ¬(alookup d t).isSome)
    (h2 : alookup a.state.active_targets t = none) :
    removalLoop d (t :: ks) a = removalLoop d ks a := by
  simp [removalLoop, h1, h2]

theorem removalLoop_cons_blank {d : List (String × String)} {t : String}
    (ks : List String) (a : Agent) (h1 : ¬(alookup d t).isSome)
    (h2 : alookup a.state.active_targets t = some "") :
    removalLoop d (t :: ks) a =
      removalLoop d ks
        { a with state := { a.state with
            active_targets := aerase a.state.active_targets t } } := by
  simp [removalLoop, h1, h2]

theorem removalLoop_cons_remove {d : List (String × String)}
    {t actual : String} (ks : List String) (a : Agent)
    (h1 : ¬(alookup d t).isSome)
    (h2 : alookup a.state.active_targets t = some actual)
    (h3 : actual ≠ "") :
    removalLoop d (t :: ks) a =
      ((removalLoop d ks
          { a with state := { a.state with
              active_targets := aerase a.state.active_targets t,
              active_kinds := aerase a.state.active_kinds actual } }).1,
       Eff.removeListen actual ::
        (removalLoop d ks
          { a with state := { a.state with
              active_targets := aerase a.state.active_targets t,
              active_kinds := aerase a.state.active_kinds actual } }).2) := by
  simp [removalLoop, h1, h2, h3]

theorem removalLoop_fields (d : List (String × String)) (ks : List String)
    (a : Agent) :
    (removalLoop d ks a).1.state.wx = a.state.wx ∧
    (removalLoop d ks a).1.state.listen_targets =
      a.state.listen_targets := by
  induction ks generalizing a with
  | nil => exact ⟨rfl, rfl⟩
  | cons t ks' ih =>
      by_cases h1 : (alookup d t).isSome
      · rw [removalLoop_cons_desired ks' a h1]; exact ih a
      · cases h2 : alookup a.state.active_targets t with
        | none => rw [removalLoop_cons_missing ks' a h1 h2]; exact ih a
        | some actual =>
            by_cases h3 : actual = ""
            · subst h3
              rw [removalLoop_cons_blank ks' a h1 h2]
              exact ih _
            · rw [removalLoop_cons_remove ks' a h1 h2 h3]
              exact ih _

theorem removalLoop_lookup (d : List (String × String)) (ks : List String)
    (a : Agent) (u : String) :
    alookup (removalLoop d ks a).1.state.active_targets u =
      if u ∈ ks ∧ alookup d u = none then none
      else alookup a.state.active_targets u := by
  induction ks generalizing a with
  | nil => simp [removalLoop]
  | cons t ks' ih =>
      by_cases h1 : (alookup d t).isSome
      · rw [removalLoop_cons_desired ks' a h1, ih a]
        by_cases hu : u = t
        · subst hu
          rcases Option.isSome_iff_exists.1 h1 with ⟨v, hv⟩
          simp [hv]
        · simp [List.mem_cons, hu]
      · cases h2 : alookup a.state.active_targets t with
        | none =>
            rw [removalLoop_cons_missing ks' a h1 h2, ih a]
            by_cases hu : u = t
            · subst hu
              by_cases hm : u ∈ ks' ∧ alookup d u = none
              · simp [hm, h2]
              · simp only [if_neg hm, h2]
                by_cases hm2 : (u = u ∨ u ∈ ks') ∧ alookup d u = none
                · simp [hm2]
                · simp [List.mem_cons, hm2]
            · simp [List.mem_cons, hu]
        | some actual =>
            have hd : alookup d u = none ∨ u ≠ t := by
              by_cases hu : u = t
              · subst hu
                left
                cases hx : alookup d u with
                | none => rfl
                | some v => rw [hx] at h1; simp at h1
              · exact Or.inr hu
            by_cases h3 : actual = ""
            · subst h3
              rw [removalLoop_cons_blank ks' a h1 h2, ih _]
              by_cases hu : u = t
              · subst hu
                rcases hd with hd | hd
                · simp [List.mem_cons, hd, alookup_aerase_self]
                · exact absurd rfl hd
              · have haer := alookup_aerase_ne a.state.active_targets t u
                  (fun hc => hu hc.symm)
                by_cases hm : u ∈ ks' ∧ alookup d u = none
                · simp [List.mem_cons, hm, hu]
                · have hm2 : ¬((u = t ∨ u ∈ ks') ∧ alookup d u = none) := by
                    rintro ⟨hor, hn⟩
                    rcases hor with rfl | hin
                    · exact hu rfl
                    · exact hm ⟨hin, hn⟩
                  simp only [List.mem_cons, if_neg hm, if_neg hm2]
                  exact haer
            · rw [removalLoop_cons_remove ks' a h1 h2 h3]
              dsimp only
              rw [ih _]
              by_cases hu : u = t
              · subst hu
                rcases hd with hd | hd
                · simp [List.mem_cons, hd, alookup_aerase_self]
                · exact absurd rfl hd
              · have haer := alookup_aerase_ne a.state.active_targets t u
                  (fun hc => hu hc.symm)
                by_cases hm : u ∈ ks' ∧ alookup d u = none
                · simp [List.mem_cons, hm, hu]
                · have hm2 : ¬((u = t ∨ u ∈ ks') ∧ alookup d u = none) := by
                    rintro ⟨hor, hn⟩
                    rcases hor with rfl | hin
                    · exact hu rfl
                    · exact hm ⟨hin, hn⟩
                  simp only [List.mem_cons, if_neg hm, if_neg hm2]
                  exact haer

theorem removalLoop_kinds_isSome (d : List (String × String))
    (ks : List String) (a : Agent) (c : String)
    (h : (alookup (removalLoop d ks a).1.state.active_kinds c).isSome) :
    (alookup a.state.active_kinds c).isSome := by
  induction ks generalizing a with
  | nil => exact h
  | cons t ks' ih =>
      by_cases h1 : (alookup d t).isSome
      · rw [removalLoop_cons_desired ks' a h1] at h; exact ih a h
      · cases h2 : alookup a.state.active_targets t with
        | none =>
            rw [removalLoop_cons_missing ks' a h1 h2] at h; exact ih a h
        | some actual =>
            by_cases h3 : actual = ""
            · subst h3
              rw [removalLoop_cons_blank ks' a h1 h2] at h
              exact ih ({ a with state := { a.state with
                active_targets := aerase a.state.active_targets t } }) h
            · rw [removalLoop_cons_remove ks' a h1 h2 h3] at h
              have := ih ({ a with state := { a.state with
                active_targets := aerase a.state.active_targets t,
                active_kinds := aerase a.state.active_kinds actual } }) h
              by_cases hc : actual = c
              · subst hc
                simp [alookup_aerase_self] at this
              · rwa [alookup_aerase_ne _ _ _ hc] at this

theorem removalLoop_no_change (d : List (String × String))
    (ks : List String) (a : Agent)
    (h : ∀ t ∈ ks, (alookup d t).isSome ∨
      alookup a.state.active_targets t = none) :
    removalLoop d ks a = (a, []) := by
  induction ks with
  | nil => rfl
  | cons t ks' ih =>
      rcases h t (List.mem_cons_self t ks') with h1 | h1
      · rw [removalLoop_cons_desired ks' a h1]
        exact ih (fun u hu => h u (List.mem_cons_of_mem _ hu))
      · by_cases h0 : (alookup d t).isSome
        · rw [removalLoop_cons_desired ks' a h0]
          exact ih (fun u hu => h u (List.mem_cons_of_mem _ hu))
        · rw [removalLoop_cons_missing ks' a h0 h1]
          exact ih (fun u hu => h u (List.mem_cons_of_mem _ hu))

/-! Step equations for additionLoop. -/

theorem additionLoop_cons_skip {w : World} {t k : String}
    (d : List (String × String)) (a : Agent)
    (h : (alookup a.state.active_targets t).isSome) :
    additionLoop w ((t, k) :: d) a = additionLoop w d a := by
  simp [additionLoop, h]

theorem additionLoop_cons_raises {w : World} {t k msg : String}
    (d : List (String × String)) (a : Agent)
    (h : ¬(alookup a.state.active_targets t).isSome)
    (ha : w.add t = AddResult.raises msg) :
    additionLoop w ((t, k) :: d) a =
      ((additionLoop w d
          (emit_error a "LISTEN_TARGET_FAILED" (t ++ ": " ++ msg) true).1).1,
       Eff.addListen t ::
        ((emit_error a "LISTEN_TARGET_FAILED" (t ++ ": " ++ msg) true).2 ++
         (additionLoop w d
           (emit_error a "LISTEN_TARGET_FAILED"
             (t ++ ": " ++ msg) true).1).2)) := by
  simp [additionLoop, h, ha]

theorem additionLoop_cons_noCI {w : World} {t k : String}
    {who : Option String} (d : List (String × String)) (a : Agent)
    (h : ¬(alookup a.state.active_targets t).isSome)
    (ha : w.add t = AddResult.returns false who) :
    additionLoop w ((t, k) :: d) a =
      ((additionLoop w d
          (emit_error a "LISTEN_TARGET_FAILED"
            (t ++ ": 无法监听该会话") true).1).1,
       Eff.addListen t ::
        ((emit_error a "LISTEN_TARGET_FAILED"
            (t ++ ": 无法监听该会话") true).2 ++
         (additionLoop w d
           (emit_error a "LISTEN_TARGET_FAILED"
             (t ++ ": 无法监听该会话") true).1).2)) := by
  simp [additionLoop, h, ha]

theorem additionLoop_cons_ok {w : World} {t k : String}
    {who : Option String} (d : List (String × String)) (a : Agent)
    (h : ¬(alookup a.state.active_targets t).isSome)
    (ha : w.add t = AddResult.returns true who) :
    additionLoop w ((t, k) :: d) a =
      ((additionLoop w d
          { a with state := { a.state with
              active_targets :=
                ainsert a.state.active_targets t (chatNameOf who t),
              active_kinds :=
                ainsert a.state.active_kinds (chatNameOf who t) k } }).1,
       Eff.addListen t ::
        (additionLoop w d
          { a with state := { a.state with
              active_targets :=
                ainsert a.state.active_targets t (chatNameOf who t),
              active_kinds :=
                ainsert a.state.active_kinds (chatNameOf who t) k } }).2) := by
  simp [additionLoop, h, ha]

theorem additionLoop_fields (w : World) (d : List (String × String))
    (a : Agent) :
    (additionLoop w d a).1.state.wx = a.state.wx ∧
    (additionLoop w d a).1.state.listen_targets =
      a.state.listen_targets := by
  induction d generalizing a with
  | nil => exact ⟨rfl, rfl⟩
  | cons p d' ih =>
      obtain ⟨t, k⟩ := p
      by_cases h : (alookup a.state.active_targets t).isSome
      · rw [additionLoop_cons_skip d' a h]; exact ih a
      · cases ha : w.add t with
        | raises msg =>
            rw [additionLoop_cons_raises d' a h ha]
            exact ih _
        | returns hasCI who =>
            cases hasCI with
            | false => rw [additionLoop_cons_noCI d' a h ha]; exact ih _
            | true => rw [additionLoop_cons_ok d' a h ha]; exact ih _

theorem additionLoop_lookup_preserved (w : World)
    (d : List (String × String)) (a : Agent) (u : String)
    (h : (alookup a.state.active_targets u).isSome) :
    alookup (additionLoop w d a).1.state.active_targets u =
      alookup a.state.active_targets u := by
  induction d generalizing a with
  | nil => rfl
  | cons p d' ih =>
      obtain ⟨t, k⟩ := p
      by_cases hs : (alookup a.state.active_targets t).isSome
      · rw [additionLoop_cons_skip d' a hs]; exact ih a h
      · have hne : t ≠ u := fun hc => hs (hc ▸ h)
        cases ha : w.add t with
        | raises msg =>
            rw [additionLoop_cons_raises d' a hs ha]
            exact ih _ h
        | returns hasCI who =>
            cases hasCI with
            | false =>
                rw [additionLoop_cons_noCI d' a hs ha]
                exact ih _ h
            | true =>
                rw [additionLoop_cons_ok d' a hs ha]
                dsimp only
                rw [ih _ (by
                  dsimp only
                  rw [alookup_ainsert_ne _ _ _ _ hne]
                  exact h)]
                dsimp only
                rw [alookup_ainsert_ne _ _ _ _ hne]

theorem additionLoop_lookup_notmem (w : World)
    (d : List (String × String)) (a : Agent) (u : String)
    (h : ∀ p ∈ d, p.1 ≠ u) :
    alookup (additionLoop w d a).1.state.active_targets u =
      alookup a.state.active_targets u := by
  induction d generalizing a with
  | nil => rfl
  | cons p d' ih =>
      obtain ⟨t, k⟩ := p
      have hne : t ≠ u := h (t, k) (List.mem_cons_self _ _)
      have hrest : ∀ p ∈ d', p.1 ≠ u :=
        fun q hq => h q (List.mem_cons_of_mem _ hq)
      by_cases hs : (alookup a.state.active_targets t).isSome
      · rw [additionLoop_cons_skip d' a hs]; exact ih a hrest
      · cases ha : w.add t with
        | raises msg =>
            rw [additionLoop_cons_raises d' a hs ha]
            exact ih _ hrest
        | returns hasCI who =>
            cases hasCI with
            | false =>
                rw [additionLoop_cons_noCI d' a hs ha]
                exact ih _ hrest
            | true =>
                rw [additionLoop_cons_ok d' a hs ha]
                dsimp only
                rw [ih _ hrest]
                dsimp only
                rw [alookup_ainsert_ne _ _ _ _ hne]

theorem additionLoop_mem_lookup (w : World) (d : List (String × String))
    (a : Agent) (u ku : String)
    (hnod : (d.map Prod.fst).Nodup) (hmem : (u, ku) ∈ d)
    (hnot : alookup a.state.active_targets u = none) :
    alookup (additionLoop w d a).1.state.active_targets u =
      (match w.add u with
       | AddResult.returns true who => some (chatNameOf who u)
       | _ => none) := by
  induction d generalizing a with
  | nil => simp at hmem
  | cons p d' ih =>
      obtain ⟨t, k⟩ := p
      have hnod' : (d'.map Prod.fst).Nodup := (List.nodup_cons.1 hnod).2
      by_cases hut : t = u
      · subst hut
        have hknot : ∀ q ∈ d', q.1 ≠ t := by
          intro q hq hc
          have hm : q.1 ∈ d'.map Prod.fst := List.mem_map_of_mem Prod.fst hq
          rw [hc] at hm
          exact (List.nodup_cons.1 hnod).1 hm
        have hs : ¬(alookup a.state.active_targets t).isSome := by
          simp [hnot]
        cases ha : w.add t with
        | raises msg =>
            rw [additionLoop_cons_raises d' a hs ha]
            dsimp only
            rw [additionLoop_lookup_notmem w d' _ t hknot]
            simpa [emit_error_fields] using hnot
        | returns hasCI who =>
            cases hasCI with
            | false =>
                rw [additionLoop_cons_noCI d' a hs ha]
                dsimp only
                rw [additionLoop_lookup_notmem w d' _ t hknot]
                simpa [emit_error_fields] using hnot
            | true =>
                rw [additionLoop_cons_ok d' a hs ha]
                dsimp only
                rw [additionLoop_lookup_notmem w d' _ t hknot]
                dsimp only
                rw [alookup_ainsert_self]
      · have hmem' : (u, ku) ∈ d' := by
          rcases List.mem_cons.1 hmem with hc | hc
          · cases hc; exact absurd rfl hut
          · exact hc
        by_cases hs : (alookup a.state.active_targets t).isSome
        · rw [additionLoop_cons_skip d' a hs]; exact ih a hnod' hmem' hnot
        · cases ha : w.add t with
          | raises msg =>
              rw [additionLoop_cons_raises d' a hs ha]
              exact ih _ hnod' hmem' (by simpa [emit_error_fields] using hnot)
          | returns hasCI who =>
              cases hasCI with
              | false =>
                  rw [additionLoop_cons_noCI d' a hs ha]
                  exact ih _ hnod' hmem'
                    (by simpa [emit_error_fields] using hnot)
              | true =>
                  rw [additionLoop_cons_ok d' a hs ha]
                  dsimp only
                  exact ih _ hnod' hmem' (by
                    dsimp only
                    rw [alookup_ainsert_ne _ _ _ _ hut]
                    exact hnot)

theorem additionLoop_lookup_source (w : World)
    (d : List (String × String)) (a : Agent) (u : String)
    (h : (alookup (additionLoop w d a).1.state.active_targets u).isSome) :
    (alookup a.state.active_targets u).isSome ∨ ∃ k, (u, k) ∈ d := by
  induction d generalizing a with
  | nil => exact Or.inl h
  | cons p d' ih =>
      obtain ⟨t, k⟩ := p
      by_cases hs : (alookup a.state.active_targets t).isSome
      · rw [additionLoop_cons_skip d' a hs] at h
        rcases ih a h with h' | ⟨k', hk'⟩
        · exact Or.inl h'
        · exact Or.inr ⟨k', List.mem_cons_of_mem _ hk'⟩
      · cases ha : w.add t with
        | raises msg =>
            rw [additionLoop_cons_raises d' a hs ha] at h
            rcases ih _ h with h' | ⟨k', hk'⟩
            · exact Or.inl (by simpa [emit_error_fields] using h')
            · exact Or.inr ⟨k', List.mem_cons_of_mem _ hk'⟩
        | returns hasCI who =>
            cases hasCI with
            | false =>
                rw [additionLoop_cons_noCI d' a hs ha] at h
                rcases ih _ h with h' | ⟨k', hk'⟩
                · exact Or.inl (by simpa [emit_error_fields] using h')
                · exact Or.inr ⟨k', List.mem_cons_of_mem _ hk'⟩
            | true =>
                rw [additionLoop_cons_ok d' a hs ha] at h
                dsimp only at h
                rcases ih _ h with h' | ⟨k', hk'⟩
                · by_cases hut : t = u
                  · exact Or.inr ⟨k, by rw [hut]; exact List.mem_cons_self _ _⟩
                  · left
                    dsimp only at h'
                    rwa [alookup_ainsert_ne _ _ _ _ hut] at h'
                · exact Or.inr ⟨k', List.mem_cons_of_mem _ hk'⟩

theorem additionLoop_kinds_source (w : World)
    (d : List (String × String)) (a : Agent) (c : String)
    (h : (alookup (additionLoop w d a).1.state.active_kinds c).isSome) :
    (alookup a.state.active_kinds c).isSome ∨
    ∃ u ku who, (u, ku) ∈ d ∧ w.add u = AddResult.returns true who ∧
      chatNameOf who u = c := by
  induction d generalizing a with
  | nil => exact Or.inl h
  | cons p d' ih =>
      obtain ⟨t, k⟩ := p
      by_cases hs : (alookup a.state.active_targets t).isSome
      · rw [additionLoop_cons_skip d' a hs] at h
        rcases ih a h with h' | ⟨u, ku, who, hm, hw, hc⟩
        · exact Or.inl h'
        · exact Or.inr ⟨u, ku, who, List.mem_cons_of_mem _ hm, hw, hc⟩
      · cases ha : w.add t with
        | raises msg =>
            rw [additionLoop_cons_raises d' a hs ha] at h
            rcases ih _ h with h' | ⟨u, ku, who, hm, hw, hc⟩
            · exact Or.inl (by simpa [emit_error_fields] using h')
            · exact Or.inr ⟨u, ku, who, List.mem_cons_of_mem _ hm, hw, hc⟩
        | returns hasCI who =>
            cases hasCI with
            | false =>
                rw [additionLoop_cons_noCI d' a hs ha] at h
                rcases ih _ h with h' | ⟨u, ku, who2, hm, hw, hc⟩
                · exact Or.inl (by simpa [emit_error_fields] using h')
                · exact Or.inr
                    ⟨u, ku, who2, List.mem_cons_of_mem _ hm, hw, hc⟩
            | true =>
                rw [additionLoop_cons_ok d' a hs ha] at h
                dsimp only at h
                rcases ih _ h with h' | ⟨u, ku, who2, hm, hw, hc⟩
                · dsimp only at h'
                  by_cases hcc : chatNameOf who t = c
                  · exact Or.inr
                      ⟨t, k, who, List.mem_cons_self _ _, ha, hcc⟩
                  · left
                    rwa [alookup_ainsert_ne _ _ _ _ hcc] at h'
                · exact Or.inr
                    ⟨u, ku, who2, List.mem_cons_of_mem _ hm, hw, hc⟩

theorem additionLoop_skip_all (w : World) (d : List (String × String))
    (a : Agent)
    (h : ∀ p ∈ d, (alookup a.state.active_targets p.1).isSome) :
    additionLoop w d a = (a, []) := by
  induction d with
  | nil => rfl
  | cons p d' ih =>
      obtain ⟨t, k⟩ := p
      rw [additionLoop_cons_skip d' a (h (t, k) (List.mem_cons_self _ _))]
      exact ih (fun q hq => h q (List.mem_cons_of_mem _ hq))

theorem additionLoop_noCI_effect (w : World) (d : List (String × String))
    (a : Agent) (t k : String) (who : Option String)
    (hnod : (d.map Prod.fst).Nodup) (hmem : (t, k) ∈ d)
    (hnot : alookup a.state.active_targets t = none)
    (ha : w.add t = AddResult.returns false who) :
    ∃ e, Eff.out e ∈ (additionLoop w d a).2 ∧ e.etype = "agent.error" ∧
      e.payload = [("code", JVal.str "LISTEN_TARGET_FAILED"),
                   ("message", JVal.str (t ++ ": 无法监听该会话")),
                   ("recoverable", JVal.bool true)] := by
  induction d generalizing a with
  | nil => simp at hmem
  | cons p d' ih =>
      obtain ⟨t', k'⟩ := p
      have hnod' : (d'.map Prod.fst).Nodup := (List.nodup_cons.1 hnod).2
      by_cases htt : t' = t
      · subst htt
        have hs : ¬(alookup a.state.active_targets t').isSome := by
          simp [hnot]
        rw [additionLoop_cons_noCI d' a hs ha]
        refine
          ⟨{ version := "1.0", etype := "agent.error",
             id := "uuid-" ++ toString a.freshId, timestamp := a.now,
             payload := [("code", JVal.str "LISTEN_TARGET_FAILED"),
                         ("message", JVal.str (t' ++ ": 无法监听该会话")),
                         ("recoverable", JVal.bool true)] }, ?_, rfl, rfl⟩
        dsimp only
        rw [emit_error_effs]
        simp
      · have hmem' : (t, k) ∈ d' := by
          rcases List.mem_cons.1 hmem with hc | hc
          · cases hc; exact absurd rfl htt
          · exact hc
        by_cases hs : (alookup a.state.active_targets t').isSome
        · rw [additionLoop_cons_skip d' a hs]
          exact ih a hnod' hmem' hnot
        · cases ha' : w.add t' with
          | raises msg =>
              rw [additionLoop_cons_raises d' a hs ha']
              obtain ⟨e, he, h1, h2⟩ :=
                ih (emit_error a "LISTEN_TARGET_FAILED"
                    (t' ++ ": " ++ msg) true).1 hnod' hmem'
                  (by simpa [emit_error_fields] using hnot)
              exact ⟨e, by simp [he], h1, h2⟩
          | returns hasCI who2 =>
              cases hasCI with
              | false =>
                  rw [additionLoop_cons_noCI d' a hs ha']
                  obtain ⟨e, he, h1, h2⟩ :=
                    ih (emit_error a "LISTEN_TARGET_FAILED"
                        (t' ++ ": 无法监听该会话") true).1 hnod' hmem'
                      (by simpa [emit_error_fields] using hnot)
                  exact ⟨e, by simp [he], h1, h2⟩
              | true =>
                  rw [additionLoop_cons_ok d' a hs ha']
                  obtain ⟨e, he, h1, h2⟩ :=
                    ih ({ a with state := { a.state with
                        active_targets := ainsert a.state.active_targets t'
                          (chatNameOf who2 t'),
                        active_kinds := ainsert a.state.active_kinds
                          (chatNameOf who2 t') k' } }) hnod' hmem' (by
                      dsimp only
                      rw [alookup_ainsert_ne _ _ _ _ htt]
                      exact hnot)
                  exact ⟨e, by simp [he], h1, h2⟩

/-! Reconcile-level lemmas. -/

theorem reconcile_fail (a : Agent) (w : World)
    (d : List (String × String)) (aa : Bool)
    (h : (try_ensure_wechat a w).2.2 = false) :
    reconcile_listeners a w d aa =
      ((try_ensure_wechat a w).1, (try_ensure_wechat a w).2.1) := by
  simp [reconcile_listeners, h]

theorem reconcile_ok (a : Agent) (w : World) (d : List (String × String))
    (h : (try_ensure_wechat a w).2.2 = true) :
    reconcile_listeners a w d true =
      ((additionLoop w d
          (removalLoop d
            (akeys (try_ensure_wechat a w).1.state.active_targets)
            (try_ensure_wechat a w).1).1).1,
       (try_ensure_wechat a w).2.1 ++
        (removalLoop d
          (akeys (try_ensure_wechat a w).1.state.active_targets)
          (try_ensure_wechat a w).1).2 ++
        (additionLoop w d
          (removalLoop d
            (akeys (try_ensure_wechat a w).1.state.active_targets)
            (try_ensure_wechat a w).1).1).2) := by
  simp [reconcile_listeners, h]

theorem reconcile_ok_noadd (a : Agent) (w : World)
    (d : List (String × String))
    (h : (try_ensure_wechat a w).2.2 = true) :
    reconcile_listeners a w d false =
      ((removalLoop d
          (akeys (try_ensure_wechat a w).1.state.active_targets)
          (try_ensure_wechat a w).1).1,
       (try_ensure_wechat a w).2.1 ++
        (removalLoop d
          (akeys (try_ensure_wechat a w).1.state.active_targets)
          (try_ensure_wechat a w).1).2) := by
  simp [reconcile_listeners, h]

theorem reconcile_listen_targets (a : Agent) (w : World)
    (d : List (String × String)) (aa : Bool) :
    (reconcile_listeners a w d aa).1.state.listen_targets =
      a.state.listen_targets := by
  cases hok : (try_ensure_wechat a w).2.2 with
  | false =>
      rw [reconcile_fail a w d aa hok]
      exact (try_ensure_active a w).2.2
  | true =>
      cases aa with
      | false =>
          rw [reconcile_ok_noadd a w d hok]
          rw [(removalLoop_fields _ _ _).2]
          exact (try_ensure_active a w).2.2
      | true =>
          rw [reconcile_ok a w d hok]
          dsimp only
          rw [(additionLoop_fields _ _ _).2, (removalLoop_fields _ _ _).2]
          exact (try_ensure_active a w).2.2

theorem reconcile_subset (a : Agent) (w : World)
    (d : List (String × String))
    (hInv : a.state.wx = false → a.state.active_targets = []) :
    ∀ u, (alookup (reconcile_listeners a w d
        true).1.state.active_targets u).isSome →
      (alookup d u).isSome := by
  intro u hu
  cases hok : (try_ensure_wechat a w).2.2 with
  | false =>
      rw [reconcile_fail a w d true hok] at hu
      obtain ⟨hwx, _⟩ := try_ensure_fail_wx a w hok
      rw [(try_ensure_active a w).1, hInv hwx] at hu
      simp [alookup] at hu
  | true =>
      rw [reconcile_ok a w d hok] at hu
      dsimp only at hu
      rcases additionLoop_lookup_source w d _ u hu with h' | ⟨k, hk⟩
      · rw [removalLoop_lookup] at h'
        by_cases hc :
            u ∈ akeys (try_ensure_wechat a w).1.state.active_targets ∧
              alookup d u = none
        · simp [hc] at h'
        · simp only [if_neg hc] at h'
          have hmem := mem_akeys_of_alookup_isSome h'
          by_cases hd : alookup d u = none
          · exact absurd ⟨hmem, hd⟩ hc
          · simpa [Option.isSome_iff_ne_none] using hd
      · exact alookup_isSome_of_mem hk

/-! Preservation of the provider invariant (`wx` absent implies no
active targets) by every operation of the dispatch loop. -/

/-- Invariant relating the stored provider handle to the active-target
bookkeeping: while no handle has ever been obtained, nothing can have
been activated. -/
def wxActiveInv (a : Agent) : Prop :=
  a.state.wx = false → a.state.active_targets = []

theorem reconcile_inv (a : Agent) (w : World) (d : List (String × String))
    (aa : Bool) (h : wxActiveInv a) :
    wxActiveInv (reconcile_listeners a w d aa).1 := by
  cases hok : (try_ensure_wechat a w).2.2 with
  | false =>
      rw [reconcile_fail a w d aa hok]
      intro _
      rw [(try_ensure_active a w).1]
      exact h (try_ensure_fail_wx a w hok).1
  | true =>
      have hwx := try_ensure_ok_wx a w hok
      cases aa with
      | false =>
          rw [reconcile_ok_noadd a w d hok]
          intro hfalse
          rw [(removalLoop_fields _ _ _).1, hwx] at hfalse
          cases hfalse
      | true =>
          rw [reconcile_ok a w d hok]
          intro hfalse
          dsimp only at hfalse
          rw [(additionLoop_fields _ _ _).1, (removalLoop_fields _ _ _).1,
            hwx] at hfalse
          cases hfalse

theorem set_listen_targets_inv (a : Agent) (w : World) (raw : RawTargets)
    (aa : Bool) (h : wxActiveInv a) :
    wxActiveInv (set_listen_targets a w raw aa).1 := by
  unfold set_listen_targets
  exact reconcile_inv _ w _ aa h

theorem clear_active_listeners_inv (a : Agent) :
    wxActiveInv (clear_active_listeners a).1 := by
  intro _
  rfl

theorem send_with_ack_inv (a : Agent) (ty : String)
    (p : List (String × JVal)) (h : wxActiveInv a) :
    wxActiveInv (send_with_ack a ty p).1 := h

theorem write_input_inv (a : Agent) (w : World) (cid txt : String)
    (r : Bool) (h : wxActiveInv a) :
    wxActiveInv (write_input a w cid txt r).1 := by
  unfold write_input
  by_cases h1 : a.state.wx = false ∧ w.ensure_ok = false
  · simp only [h1, if_true]
    exact h
  · simp only [h1, if_false]
    intro hfalse
    exfalso
    revert hfalse
    by_cases h3 : a.state.wx = true <;>
      by_cases h2 : w.clip_import_ok = false <;>
        by_cases h4 : w.clip_copy_ok <;>
          simp [h2, h3, h4, send_with_ack, mkEnvelope]

theorem list_recent_fail (a : Agent) (w : World)
    (h : (try_ensure_wechat a w).2.2 = false) :
    list_recent_chats a w =
      ((try_ensure_wechat a w).1, (try_ensure_wechat a w).2.1, []) := by
  simp [list_recent_chats, h]

theorem list_recent_ok_none (a : Agent) (w : World)
    (h : (try_ensure_wechat a w).2.2 = true) (hs : w.sessions = none) :
    list_recent_chats a w =
      ((emit_error (try_ensure_wechat a w).1 "CHAT_LIST_FAILED"
          w.sessions_err true).1,
       (try_ensure_wechat a w).2.1 ++
        (emit_error (try_ensure_wechat a w).1 "CHAT_LIST_FAILED"
          w.sessions_err true).2, []) := by
  simp [list_recent_chats, h, hs]

theorem list_recent_ok_some (a : Agent) (w : World)
    (items : List (Option String))
    (h : (try_ensure_wechat a w).2.2 = true)
    (hs : w.sessions = some items) :
    list_recent_chats a w =
      ((try_ensure_wechat a w).1, (try_ensure_wechat a w).2.1,
       items.filterMap (fun o =>
         match o with
         | some n => if pyStrip n ≠ "" then some (pyStrip n) else none
         | none => none)) := by
  simp [list_recent_chats, h, hs]

theorem list_recent_chats_inv (a : Agent) (w : World) (h : wxActiveInv a) :
    wxActiveInv (list_recent_chats a w).1 := by
  cases hok : (try_ensure_wechat a w).2.2 with
  | false =>
      rw [list_recent_fail a w hok]
      intro _
      rw [(try_ensure_active a w).1]
      exact h (try_ensure_fail_wx a w hok).1
  | true =>
      have hwx := try_ensure_ok_wx a w hok
      cases hs : w.sessions with
      | none =>
          rw [list_recent_ok_none a w hok hs]
          intro hfalse
          rw [show (((emit_error (try_ensure_wechat a w).1
              "CHAT_LIST_FAILED" w.sessions_err true).1,
              (try_ensure_wechat a w).2.1 ++
                (emit_error (try_ensure_wechat a w).1 "CHAT_LIST_FAILED"
                  w.sessions_err true).2,
              ([] : List String))).1.state.wx =
            (try_ensure_wechat a w).1.state.wx from rfl, hwx] at hfalse
          cases hfalse
      | some items =>
          rw [list_recent_ok_some a w items hok hs]
          intro hfalse
          rw [show (((try_ensure_wechat a w).1,
              (try_ensure_wechat a w).2.1,
              items.filterMap (fun o =>
                match o with
                | some n => if pyStrip n ≠ "" then some (pyStrip n) else none
                | none => none))).1.state.wx =
            (try_ensure_wechat a w).1.state.wx from rfl, hwx] at hfalse
          cases hfalse

theorem handle_incoming_inv (a : Agent) (m : RawMessage) (ch : Chat)
    (nm : String) (h : wxActiveInv a) :
    wxActiveInv (handle_incoming_message a m ch nm).1 := by
  by_cases h1 : extract_message_text m = ""
  · have : handle_incoming_message a m ch nm = (a, []) := by
      simp [handle_incoming_message, h1]
    rw [this]; exact h
  · by_cases h2 : alookup a.state.last_message_keys nm = some (dedupKey m)
    · rw [ingest_suppresses_duplicate a m ch nm h2]; exact h
    · have hfields :
          (handle_incoming_message a m ch nm).1.state.wx = a.state.wx ∧
          (handle_incoming_message a m ch nm).1.state.active_targets =
            a.state.active_targets := by
        simp [handle_incoming_message, h1, dedupKey] at h2 ⊢
        simp [h2, send_with_ack, mkEnvelope]
      intro hwx
      rw [hfields.2]
      exact h (by rwa [hfields.1] at hwx)

theorem process_pending_inv (a : Agent) (h : wxActiveInv a) :
    wxActiveInv (process_pending a).1 := h

theorem handleCommandBody_inv (a : Agent) (w : World) (msg : Cmd)
    (h : wxActiveInv a) : wxActiveInv (handleCommandBody a w msg).1 := by
  unfold handleCommandBody
  by_cases h1 : msg.ctype = "listen.start" ∨ msg.ctype = "listen.resume"
  · simp only [h1, if_true]
    cases hpi : msg.payload.poll_interval_ms with
    | none =>
        cases hts : msg.payload.targets with
        | none =>
            exact send_with_ack_inv _ _ _ (reconcile_inv _ _ _ _ h)
        | some t =>
            exact send_with_ack_inv _ _ _ (set_listen_targets_inv _ _ _ _ h)
    | some v =>
        by_cases hv : v ≥ 200 <;> simp only [hv, if_true, if_false] <;>
          cases hts : msg.payload.targets
        · exact send_with_ack_inv _ _ _ (reconcile_inv _ _ _ _ h)
        · exact send_with_ack_inv _ _ _ (set_listen_targets_inv _ _ _ _ h)
        · exact send_with_ack_inv _ _ _ (reconcile_inv _ _ _ _ h)
        · exact send_with_ack_inv _ _ _ (set_listen_targets_inv _ _ _ _ h)
  · simp only [h1, if_false]
    by_cases h2 : msg.ctype = "listen.pause"
    · simp only [h2, if_true]
      exact send_with_ack_inv _ _ _ h
    · simp only [h2, if_false]
      by_cases h3 : msg.ctype = "listen.stop"
      · simp only [h3, if_true]
        exact send_with_ack_inv _ _ _ (clear_active_listeners_inv _)
      · simp only [h3, if_false]
        by_cases h4 : msg.ctype = "listen.targets"
        · simp only [h4, if_true]
          exact set_listen_targets_inv _ _ _ _ h
        · simp only [h4, if_false]
          by_cases h5 : msg.ctype = "input.write"
          · simp only [h5, if_true]
            by_cases h6 : pyStrip msg.payload.chat_id = "" ∨
                pyStrip msg.payload.text = ""
            · simp only [h6, if_true]
              exact send_with_ack_inv _ _ _ h
            · simp only [h6, if_false]
              exact write_input_inv _ _ _ _ _ h
          · simp only [h5, if_false]
            by_cases h7 : msg.ctype = "chats.list"
            · simp only [h7, if_true]
              by_cases h8 : pyStrip msg.payload.request_id = ""
              · simp only [h8, if_true]
                exact send_with_ack_inv _ _ _
                  (list_recent_chats_inv _ _ (send_with_ack_inv _ _ _ h))
              · simp only [h8, if_false]
                exact send_with_ack_inv _ _ _ (list_recent_chats_inv _ _ h)
            · simp only [h7, if_false]
              exact h

theorem handle_command_inv (a : Agent) (w : World) (c : Cmd)
    (h : wxActiveInv a) : wxActiveInv (handle_command a w c).1 := by
  unfold handle_command
  by_cases h1 : c.ctype = "event.ack"
  · simp only [h1, if_true]
    cases hid : c.payload.ack_id with
    | none => exact h
    | some ackId =>
        by_cases h2 : (alookup a.state.pending ackId).isSome <;>
          simp only [hid, h2, if_true, if_false] <;> exact h
  · simp only [h1, if_false]
    by_cases h2 : c.id = ""
    · simp only [h2]
      simp only [ne_eq, not_true_eq_false, if_false]
      exact handleCommandBody_inv a w c h
    · simp only [ne_eq, h2, not_false_eq_true, if_true]
      exact handleCommandBody_inv _ w c h

/-- Every reachable agent state satisfies the provider invariant. -/
theorem reachable_inv (a : Agent) (h : Reachable a) : wxActiveInv a := by
  induction h with
  | init now => intro _; rfl
  | ready _ ih => exact send_with_ack_inv _ _ _ ih
  | tick now _ ih => exact ih
  | enqueue it _ ih => exact ih
  | cmd w c _ ih => exact handle_command_inv _ w c ih
  | incoming m ch nm _ ih => exact handle_incoming_inv _ m ch nm ih
  | sweep _ ih => exact process_pending_inv _ ih

/-! ### C3: reconciliation invariant on reachable states -/

/-- C3: from any reachable agent state, running reconciliation with
additions permitted and desired set equal to the stored listen targets
leaves the active-target keys a subset of the listen-target keys — in
particular also when no provider can be obtained, since reachability
guarantees nothing was ever activated without a provider. -/
theorem reconcile_preserves_target_invariant (a : Agent) (w : World)
    (d : List (String × String)) (hreach : Reachable a) :
    ∀ t, t ∈ akeys (reconcile_listeners
        { a with state := { a.state with listen_targets := d } } w d
        true).1.state.active_targets →
      t ∈ akeys (reconcile_listeners
        { a with state := { a.state with listen_targets := d } } w d
        true).1.state.listen_targets := by
  intro t ht
  have hInv := reachable_inv a hreach
  have hsub :=
    reconcile_subset
      { a with state := { a.state with listen_targets := d } } w d
      hInv t (alookup_isSome_of_mem_akeys ht)
  have hd : t ∈ akeys d := mem_akeys_of_alookup_isSome hsub
  rw [reconcile_listen_targets]
  exact hd

theorem reconcile_preserves_target_invariant_witness :
    "A" ∈ akeys (reconcile_listeners
        { initialAgent 0 with state := { (initialAgent 0).state with
            listen_targets := [("A", "group")] } } wOk [("A", "group")]
        true).1.state.active_targets ∧
    "A" ∈ akeys (reconcile_listeners
        { initialAgent 0 with state := { (initialAgent 0).state with
            listen_targets := [("A", "group")] } } wOk [("A", "group")]
        true).1.state.listen_targets :=
  ⟨by decide,
   reconcile_preserves_target_invariant (initialAgent 0) wOk
     [("A", "group")] (Reachable.init 0) "A" (by decide)⟩

/-! ### C4: idempotence of reconciliation -/

/-- Calls issued to the external chat-session provider. -/
def providerCall : Eff → Bool := fun e =>
  match e with
  | Eff.addListen _ => true
  | Eff.removeListen _ => true
  | _ => false

theorem try_ensure_fail_iff (a : Agent) (w : World) :
    (try_ensure_wechat a w).2.2 = false ↔
      (a.state.wx = false ∧ w.ensure_ok = false) := by
  by_cases h1 : a.state.wx <;> by_cases h2 : w.ensure_ok <;>
    simp [try_ensure_wechat, h1, h2, emit_error]

theorem try_ensure_fail_effs (a : Agent) (w : World)
    (h1 : a.state.wx = false) (h2 : w.ensure_ok = false) :
    (try_ensure_wechat a w).2.1 =
      (emit_error a "LISTEN_FAILED" w.ensure_err true).2 := by
  simp [try_ensure_wechat, h1, h2]

theorem reconcile_ok_subset (a : Agent) (w : World)
    (d : List (String × String))
    (hok : (try_ensure_wechat a w).2.2 = true) :
    ∀ u, (alookup (reconcile_listeners a w d
        true).1.state.active_targets u).isSome →
      (alookup d u).isSome := by
  intro u hu
  rw [reconcile_ok a w d hok] at hu
  dsimp only at hu
  rcases additionLoop_lookup_source w d _ u hu with h' | ⟨k, hk⟩
  · rw [removalLoop_lookup] at h'
    by_cases hc :
        u ∈ akeys (try_ensure_wechat a w).1.state.active_targets ∧
          alookup d u = none
    · simp [hc] at h'
    · simp only [if_neg hc] at h'
      have hmem := mem_akeys_of_alookup_isSome h'
      by_cases hd : alookup d u = none
      · exact absurd ⟨hmem, hd⟩ hc
      · simpa [Option.isSome_iff_ne_none] using hd
  · exact alookup_isSome_of_mem hk

/-- C4 (amended: provided the first pass left every desired target
active — in particular when every `AddListenChat` succeeded).  Running
reconciliation a second time with the same desired map issues no
provider calls: no `AddListenChat` and no `RemoveListenChat`. -/
theorem reconcile_idempotent_after_success (a : Agent) (w : World)
    (d : List (String × String))
    (hall : ∀ p ∈ d, (alookup (reconcile_listeners a w d
        true).1.state.active_targets p.1).isSome) :
    ((reconcile_listeners (reconcile_listeners a w d true).1 w d
        true).2.filter providerCall) = [] := by
  cases hok : (try_ensure_wechat a w).2.2 with
  | false =>
      obtain ⟨hwx0, hens0⟩ := (try_ensure_fail_iff a w).1 hok
      have hr1 : (reconcile_listeners a w d true).1.state.wx = false := by
        rw [reconcile_fail a w d true hok]
        exact (try_ensure_fail_wx a w hok).2
      have hok2 : (try_ensure_wechat
          (reconcile_listeners a w d true).1 w).2.2 = false :=
        (try_ensure_fail_iff _ w).2 ⟨hr1, hens0⟩
      rw [reconcile_fail _ w d true hok2,
        try_ensure_fail_effs _ w hr1 hens0, emit_error_effs]
      simp [providerCall]
  | true =>
      have hsub := reconcile_ok_subset a w d hok
      have hr1wx : (reconcile_listeners a w d true).1.state.wx = true := by
        rw [reconcile_ok a w d hok]
        dsimp only
        rw [(additionLoop_fields _ _ _).1, (removalLoop_fields _ _ _).1]
        exact try_ensure_ok_wx a w hok
      have htee2 := try_ensure_wx_true
        (reconcile_listeners a w d true).1 w hr1wx
      have hok2 : (try_ensure_wechat
          (reconcile_listeners a w d true).1 w).2.2 = true := by
        rw [htee2]
      rw [reconcile_ok _ w d hok2, htee2]
      dsimp only
      have hrem : removalLoop d
          (akeys (reconcile_listeners a w d true).1.state.active_targets)
          (reconcile_listeners a w d true).1 =
            ((reconcile_listeners a w d true).1, []) := by
        apply removalLoop_no_change
        intro t ht
        exact Or.inl (hsub t (alookup_isSome_of_mem_akeys ht))
      rw [hrem]
      dsimp only
      have hadd : additionLoop w d (reconcile_listeners a w d true).1 =
          ((reconcile_listeners a w d true).1, []) :=
        additionLoop_skip_all w d _ hall
      rw [hadd]
      rfl

theorem reconcile_idempotent_after_success_witness :
    (alookup (reconcile_listeners
        { state := { wx := true }, msgQueue := [], now := 0, freshId := 0 }
        wOk [("A", "group")] true).1.state.active_targets "A").isSome ∧
    ((reconcile_listeners (reconcile_listeners
        { state := { wx := true }, msgQueue := [], now := 0, freshId := 0 }
        wOk [("A", "group")] true).1 wOk [("A", "group")]
        true).2.filter providerCall) = [] :=
  ⟨by decide,
   reconcile_idempotent_after_success
     { state := { wx := true }, msgQueue := [], now := 0, freshId := 0 }
     wOk [("A", "group")] (by decide)⟩

/-- Agent already holding a provider handle. -/
def agentC4 : Agent :=
  { state := { wx := true }, msgQueue := [], now := 0, freshId := 0 }

/-- World whose `AddListenChat` always raises. -/
def worldC4 : World :=
  { ensure_ok := true, ensure_err := "",
    add := fun _ => AddResult.raises "boom",
    sessions := some [], sessions_err := "",
    clip_import_ok := true, import_err := "",
    clip_paste := none, clip_copy_ok := true, copy_err := "" }

/-- C4 counterexample: when a desired target failed on the first pass it
is not recorded as active, so the second pass with the identical desired
map calls `AddListenChat` for it again — the second run does issue a
provider call. -/
theorem reconcile_retries_failed_target :
    ((reconcile_listeners (reconcile_listeners agentC4 worldC4
        [("A", "group")] true).1 worldC4 [("A", "group")]
        true).2.filter providerCall) = [Eff.addListen "A"] := rfl

/-! ### C10: per-target failure on missing ChatInfo -/

/-- C10: during reconciliation with additions permitted, a desired
target whose `AddListenChat` returns a value without a `ChatInfo`
attribute is treated as failed: a LISTEN_TARGET_FAILED `agent.error` is
emitted for it, it is not recorded in `active_targets`, every
`active_kinds` entry traces to the pre-state or to a target whose add
did succeed, and the remaining desired targets are still processed
(every other fresh target whose add succeeds ends up active). -/
theorem listen_target_failed_no_chatinfo (a : Agent) (w : World)
    (d : List (String × String)) (t k : String) (who : Option String)
    (hwx : a.state.wx = true) (hnod : (d.map Prod.fst).Nodup)
    (hmem : (t, k) ∈ d)
    (hnot : alookup a.state.active_targets t = none)
    (hadd : w.add t = AddResult.returns false who) :
    (∃ e, Eff.out e ∈ (reconcile_listeners a w d true).2 ∧
       e.etype = "agent.error" ∧
       e.payload = [("code", JVal.str "LISTEN_TARGET_FAILED"),
                    ("message", JVal.str (t ++ ": 无法监听该会话")),
                    ("recoverable", JVal.bool true)]) ∧
    alookup (reconcile_listeners a w d
      true).1.state.active_targets t = none ∧
    (∀ c, (alookup (reconcile_listeners a w d
        true).1.state.active_kinds c).isSome →
      (alookup a.state.active_kinds c).isSome ∨
      ∃ u ku who2, (u, ku) ∈ d ∧
        w.add u = AddResult.returns true who2 ∧ chatNameOf who2 u = c) ∧
    (∀ u ku who2, (u, ku) ∈ d →
      alookup a.state.active_targets u = none →
      w.add u = AddResult.returns true who2 →
      alookup (reconcile_listeners a w d true).1.state.active_targets u =
        some (chatNameOf who2 u)) := by
  have htee := try_ensure_wx_true a w hwx
  have hok : (try_ensure_wechat a w).2.2 = true := by rw [htee]
  have hremnone : ∀ u, alookup a.state.active_targets u = none →
      alookup (removalLoop d
        (akeys (try_ensure_wechat a w).1.state.active_targets)
        (try_ensure_wechat a w).1).1.state.active_targets u = none := by
    intro u hu
    rw [removalLoop_lookup]
    rw [htee]
    by_cases hc : u ∈ akeys a.state.active_targets ∧ alookup d u = none
    · simp [hc]
    · simp [hc, hu]
  refine ⟨?_, ?_, ?_, ?_⟩
  · obtain ⟨e, he, h1, h2⟩ :=
      additionLoop_noCI_effect w d
        (removalLoop d
          (akeys (try_ensure_wechat a w).1.state.active_targets)
          (try_ensure_wechat a w).1).1 t k who hnod hmem
        (hremnone t hnot) hadd
    refine ⟨e, ?_, h1, h2⟩
    rw [reconcile_ok a w d hok]
    simp only [List.mem_append]
    exact Or.inr he
  · rw [reconcile_ok a w d hok]
    dsimp only
    rw [additionLoop_mem_lookup w d _ t k hnod hmem (hremnone t hnot), hadd]
  · intro c hc
    rw [reconcile_ok a w d hok] at hc
    dsimp only at hc
    rcases additionLoop_kinds_source w d _ c hc with h' | h'
    · have hh := removalLoop_kinds_isSome d
        (akeys (try_ensure_wechat a w).1.state.active_targets)
        (try_ensure_wechat a w).1 c h'
      rw [htee] at hh
      exact Or.inl hh
    · exact Or.inr h'
  · intro u ku who2 hu hnu haddu
    rw [reconcile_ok a w d hok]
    dsimp only
    rw [additionLoop_mem_lookup w d _ u ku hnod hu (hremnone u hnu), haddu]

/-- Agent for the C10 witness. -/
def agentC10 : Agent :=
  { state := { wx := true }, msgQueue := [], now := 0, freshId := 0 }

/-- World where target A resolves without ChatInfo and target B
succeeds. -/
def worldC10 : World :=
  { ensure_ok := true, ensure_err := "",
    add := fun n =>
      if n = "A" then AddResult.returns false none
      else AddResult.returns true (some "BB"),
    sessions := some [], sessions_err := "",
    clip_import_ok := true, import_err := "",
    clip_paste := none, clip_copy_ok := true, copy_err := "" }

theorem listen_target_failed_no_chatinfo_witness :
    (∃ e, Eff.out e ∈ (reconcile_listeners agentC10 worldC10
        [("A", "group"), ("B", "direct")] true).2 ∧
       e.etype = "agent.error" ∧
       e.payload = [("code", JVal.str "LISTEN_TARGET_FAILED"),
                    ("message", JVal.str ("A" ++ ": 无法监听该会话")),
                    ("recoverable", JVal.bool true)]) ∧
    alookup (reconcile_listeners agentC10 worldC10
      [("A", "group"), ("B", "direct")]
      true).1.state.active_targets "A" = none ∧
    ((alookup agentC10.state.active_kinds "BB").isSome ∨
      ∃ u ku who2, (u, ku) ∈ [("A", "group"), ("B", "direct")] ∧
        worldC10.add u = AddResult.returns true who2 ∧
        chatNameOf who2 u = "BB") ∧
    alookup (reconcile_listeners agentC10 worldC10
      [("A", "group"), ("B", "direct")]
      true).1.state.active_targets "B" =
        some (chatNameOf (some "BB") "B") := by
  have h := listen_target_failed_no_chatinfo agentC10 worldC10
    [("A", "group"), ("B", "direct")] "A" "group" none rfl (by decide)
    (by decide) rfl rfl
  exact ⟨h.1, h.2.1, h.2.2.1 "BB" (by decide),
    h.2.2.2 "B" "direct" (some "BB") (by decide) rfl rfl⟩
